import Mathlib

/-!
# pytasks: the Python singleton coordinator

A shallow embedding of `python.go` (package `pytasks`).

The Go code is concurrent; it is embedded twice.

* Part A, a *sequential run*: one goroutine issues the public calls one after
  the other.  A goroutine started with `go` is recorded in the world and runs
  when somebody waits on the `sync.WaitGroup` it will release.  A call that can
  never continue (a `Lock` on a held mutex, a `Wait` whose counter nobody will
  bring to zero, a `PyGILState_Ensure` while the interpreter lock is held by a
  thread that is itself waiting) yields `Res.blocked`.  Every call to `sync`,
  `runtime` and `python3` is written to `World.trace` in execution order.
* Part B, an *interleaving machine* for `NewTask`, the worker goroutine of
  `newTask`, `Finalize` and the tail of the start goroutine, one source
  statement per step, used for the properties that speak about schedules.

The embedded interpreter is a collaborator and is a parameter (`Python`).
-/

namespace Pytasks

/-! ## Part A: data model -/

/-- Identity (address) of a non-nil `*python3.PyObject`; a nullable pointer is an `Option Handle`. -/
abbrev Handle := Nat

/-- The values built by `errors.New` in `python.go`, and errors a caller-supplied option returns. -/
inductive GoError where
  /-- Message "Error initializing the python interpreter" -/
  | errorInitializing
  /-- Message "Finalize has been called on PythonSingleton. No new operations" -/
  | noNewOperations
  /-- Message "Finalize already called on PythonSingleton" -/
  | finalizeAlreadyCalled
  /-- Message "error importing module" -/
  | errorImportingModule
  /-- An error value produced by a caller-supplied option function -/
  | optionError (code : Nat)
deriving DecidableEq, Repr

/-- The goroutines of a run. -/
inductive Thread where
  /-- The goroutine that calls the public API -/
  | caller
  /-- The goroutine started by `initPython` -/
  | start
  /-- The goroutine started by the `id`-th call of `newTask` -/
  | worker (id : Nat)
  /-- The goroutine started by `Finalize` to call `ps.stopWG.Done()` -/
  | stopper
deriving DecidableEq, Repr

/-- The wait groups of the program. -/
inductive WG where
  /-- Field `ps.taskWG`: the in-flight task counter -/
  | taskWG
  /-- Field `ps.stopWG` -/
  | stopWG
  /-- Field `ps.stoppedWG` -/
  | stoppedWG
  /-- Local `startedWG` of `initPython` -/
  | startedWG
  /-- Local `wg` of the `id`-th call of `newTask`: the completion signal it returns -/
  | wg (id : Nat)
deriving DecidableEq, Repr

/-- The type `PythonSingletonOption`, a function run on the coordinator during startup. -/
inductive PythonSingletonOption where
  /-- The option built by `WithModules(modules)` -/
  | WithModules (modules : List String)
  /-- A caller-written option that makes no call on the coordinator and returns `err` -/
  | returning (err : Option GoError)
deriving DecidableEq, Repr

/-- One executed call to `fmt`, `sync`, `runtime` or `python3`, one call of a startup option, or
one run of a task closure. -/
inductive Event where
  | printf
  | mutexLock
  | mutexUnlock
  | wgAdd (g : WG)
  | wgDone (g : WG)
  | wgWait (g : WG)
  | go (t : Thread)
  | lockOSThread
  | unlockOSThread
  | pyInit
  | pyIsInitialized
  | pyImportModule (name : String)
  | decRef
  | pyEvalSaveThread
  | pyEvalRestoreThread
  | pyFinalize
  | gilEnsure (gstate : Nat)
  | gilRelease (gstate : Nat)
  /-- The caller-supplied closure with this label runs -/
  | task (label : Nat)
  /-- The call of `python3.PyImport_Import` for this name -/
  | pyImport (name : String)
  | pyErrPrint
  /-- The call `opt(ps)` of a startup option -/
  | option (opt : PythonSingletonOption)
deriving DecidableEq, Repr

/-- The closures handed to `newTask`: the import closure built by `ImportModule`,
or a caller-supplied closure, which is known only by a label. -/
inductive Work where
  | importTask (name : String)
  | userTask (label : Nat)
deriving DecidableEq, Repr

/-- The struct `pythonSingleton`. -/
structure pythonSingleton where
  taskWG : Nat
  stopWG : Nat
  stoppedWG : Nat
  /-- The mutex `lock`: true when held -/
  lock : Bool
  /-- The map `modules`, as an association list with unique keys -/
  modules : List (String × Option Handle)
  stopped : Bool
  /-- The `sync.Once` `stopOnce`: true when done -/
  stopOnce : Bool
deriving DecidableEq, Repr

/-- The process state of a sequential run. -/
structure World where
  /-- Package variable `singletonOnce`: true when done -/
  singletonOnce : Bool
  /-- Package variable `pythonSingletonInstance`: the address of the published object, if any -/
  pythonSingletonInstance : Option Nat
  /-- Number of `pythonSingleton` objects allocated so far; the latest has this address -/
  allocs : Nat
  /-- The fields of the latest allocated `pythonSingleton` -/
  ps : pythonSingleton
  /-- The local `startedWG` of `initPython` -/
  startedWG : Nat
  /-- Field `Err` of the `Tuple` returned by `initPython` -/
  resultErr : Option GoError
  /-- Number of `newTask` calls so far; the next worker gets this id -/
  tasks : Nat
  /-- Counters of the local wait groups `wg` of `newTask`, latest binding first -/
  wgs : List (Nat × Nat)
  /-- Worker goroutines started by `newTask` that have not run yet, latest first -/
  goroutines : List (Nat × Work)
  /-- True when the start goroutine sits in `ps.stopWG.Wait()` -/
  startWaiting : Bool
  /-- The goroutine holding the interpreter lock (GIL), if any -/
  gil : Option Thread
  /-- Number of state tokens handed out by `PyGILState_Ensure` -/
  gstates : Nat
  /-- The names passed to `python3.PyImport_Import` so far, in call order -/
  imports : List String
  /-- Every executed call, in execution order -/
  trace : List (Thread × Event)
deriving DecidableEq, Repr

/-- The collaborator: what the embedded interpreter answers. -/
structure Python where
  /-- What `Py_IsInitialized` reports after `Py_Initialize` -/
  Py_IsInitialized : Bool
  /-- What `PyImport_Import` returns for a name, given the names imported before; `none` is nil -/
  PyImport_Import : List String → String → Option Handle

/-- Outcome of a call in a sequential run. -/
inductive Res (α : Type) where
  /-- The call returned `val` -/
  | ok (val : α) (w : World)
  /-- The call never returns; `w` is the world in which it is stuck -/
  | blocked (w : World)
deriving DecidableEq, Repr

/-- The world a call ended in: the one it returned in, or the one it is stuck in. -/
def Res.world {α : Type} : Res α → World
  | Res.ok _ w => w
  | Res.blocked w => w

/-- The value a call returned, `none` when it never returns. -/
def Res.val {α : Type} : Res α → Option α
  | Res.ok v _ => some v
  | Res.blocked _ => none

/-- Process start: zero values everywhere. -/
def World.init : World :=
  { singletonOnce := false, pythonSingletonInstance := none, allocs := 0,
    ps := { taskWG := 0, stopWG := 0, stoppedWG := 0, lock := false, modules := [],
            stopped := false, stopOnce := false },
    startedWG := 0, resultErr := none, tasks := 0, wgs := [], goroutines := [],
    startWaiting := false, gil := none, gstates := 0, imports := [], trace := [] }

/-! ## Part A: the primitives of `sync`, `runtime` and `python3` -/

/-- Append one event of goroutine `t` to the trace. -/
def World.log (w : World) (t : Thread) (e : Event) : World :=
  { w with trace := w.trace ++ [(t, e)] }

/-- Mutex `ps.lock.Lock()`: `none` when the mutex is held (the caller waits for an unlock). -/
def lockLock (t : Thread) (w : World) : Option World :=
  if w.ps.lock then none
  else some ({ w with ps := { w.ps with lock := true } }.log t Event.mutexLock)

/-- Mutex `ps.lock.Unlock()`. -/
def lockUnlock (t : Thread) (w : World) : World :=
  { w with ps := { w.ps with lock := false } }.log t Event.mutexUnlock

/-- Counter of a wait group. -/
def wgGet (w : World) : WG → Nat
  | WG.taskWG => w.ps.taskWG
  | WG.stopWG => w.ps.stopWG
  | WG.stoppedWG => w.ps.stoppedWG
  | WG.startedWG => w.startedWG
  | WG.wg id => (w.wgs.lookup id).getD 0

/-- Store a counter of a wait group. -/
def wgSet (w : World) : WG → Nat → World
  | WG.taskWG, n => { w with ps := { w.ps with taskWG := n } }
  | WG.stopWG, n => { w with ps := { w.ps with stopWG := n } }
  | WG.stoppedWG, n => { w with ps := { w.ps with stoppedWG := n } }
  | WG.startedWG, n => { w with startedWG := n }
  | WG.wg id, n => { w with wgs := (id, n) :: w.wgs }

/-- WaitGroup `Add(1)`. -/
def wgAdd (t : Thread) (g : WG) (w : World) : World :=
  (wgSet w g (wgGet w g + 1)).log t (Event.wgAdd g)

/-- WaitGroup `Done()`; the code never calls it on a zero counter. -/
def wgDone (t : Thread) (g : WG) (w : World) : World :=
  (wgSet w g (wgGet w g - 1)).log t (Event.wgDone g)

/-- Call `runtime.LockOSThread()`. -/
def LockOSThread (t : Thread) (w : World) : World := w.log t Event.lockOSThread

/-- Call `runtime.UnlockOSThread()`. -/
def UnlockOSThread (t : Thread) (w : World) : World := w.log t Event.unlockOSThread

/-- Call `python3.Py_Initialize()`: the calling thread holds the interpreter lock afterwards. -/
def Py_Initialize (t : Thread) (w : World) : World :=
  { w with gil := some t }.log t Event.pyInit

/-- Call `python3.PyEval_SaveThread()`: releases the interpreter lock. -/
def PyEval_SaveThread (t : Thread) (w : World) : World :=
  { w with gil := none }.log t Event.pyEvalSaveThread

/-- Call `python3.PyEval_RestoreThread(state)`: takes the interpreter lock, `none` while it is held. -/
def PyEval_RestoreThread (t : Thread) (w : World) : Option World :=
  if w.gil.isSome then none
  else some ({ w with gil := some t }.log t Event.pyEvalRestoreThread)

/-- Call `python3.Py_Finalize()`. -/
def Py_Finalize (t : Thread) (w : World) : World := w.log t Event.pyFinalize

/-- Call `python3.PyGILState_Ensure()`: takes the interpreter lock and returns a fresh state
token, `none` while the lock is held. -/
def PyGILState_Ensure (t : Thread) (w : World) : Option (Nat × World) :=
  if w.gil.isSome then none
  else some (w.gstates,
    { w with gil := some t, gstates := w.gstates + 1 }.log t (Event.gilEnsure w.gstates))

/-- Call `python3.PyGILState_Release(gstate)`. -/
def PyGILState_Release (t : Thread) (gstate : Nat) (w : World) : World :=
  { w with gil := none }.log t (Event.gilRelease gstate)

/-- Map write `m[k] = v`. -/
def mapSet (m : List (String × Option Handle)) (k : String) (v : Option Handle) :
    List (String × Option Handle) :=
  (k, v) :: m.filter (fun e => e.1 != k)

/-- The calls the code defers with `defer`, with their arguments evaluated at the `defer`. -/
inductive Deferred where
  | lockUnlock
  | taskWGDone
  | wgDone (id : Nat)
  | unlockOSThread
  | gilRelease (gstate : Nat)
deriving DecidableEq, Repr

/-- Run one deferred call. -/
def runDeferredCall (t : Thread) : Deferred → World → World
  | Deferred.lockUnlock, w => lockUnlock t w
  | Deferred.taskWGDone, w => wgDone t WG.taskWG w
  | Deferred.wgDone id, w => wgDone t (WG.wg id) w
  | Deferred.unlockOSThread, w => UnlockOSThread t w
  | Deferred.gilRelease gstate, w => PyGILState_Release t gstate w

/-- Function return: the deferred calls run last-in-first-out. The stack has the latest
`defer` at its head. -/
def runDeferred (t : Thread) (stack : List Deferred) (w : World) : World :=
  stack.foldl (fun w d => runDeferredCall t d w) w

/-! ## Part A: the functions of `python.go` -/

/-- The closure body `task()`. For `ImportModule` it is the closure that assigns the captured
`module` and `err`; the pair returned is what those variables hold afterwards. -/
def runTask (py : Python) (t : Thread) : Work → World → (Option Handle × Option GoError) × World
  | Work.userTask label, w => ((none, none), w.log t (Event.task label))
  | Work.importTask name, w =>
    -- pyName := python3.PyUnicode_FromString(name); module = python3.PyImport_Import(pyName)
    let module := py.PyImport_Import w.imports name
    let w := { w with imports := w.imports ++ [name] }.log t (Event.pyImport name)
    match module with
    | none =>
      -- python3.PyErr_PrintEx(false); err = errors.New("error importing module")
      ((none, some GoError.errorImportingModule), w.log t Event.pyErrPrint)
    | some m => ((some m, none), w)

/-- The goroutine `go func() { ... }()` of `newTask`, for worker `id` running `task`. -/
def worker (py : Python) (id : Nat) (task : Work) (w : World) :
    Res (Option Handle × Option GoError) :=
  let t := Thread.worker id
  -- defer ps.taskWG.Done()
  let stack := [Deferred.taskWGDone]
  -- defer wg.Done()
  let stack := Deferred.wgDone id :: stack
  -- runtime.LockOSThread()
  let w := LockOSThread t w
  -- defer runtime.UnlockOSThread()
  let stack := Deferred.unlockOSThread :: stack
  -- _gstate := python3.PyGILState_Ensure()
  match PyGILState_Ensure t w with
  | none => Res.blocked w
  | some (_gstate, w) =>
    -- defer python3.PyGILState_Release(_gstate)
    let stack := Deferred.gilRelease _gstate :: stack
    -- task()
    let (slot, w) := runTask py t task w
    Res.ok slot (runDeferred t stack w)

/-- Function `newTask`: returns `(&wg, nil)`; the wait group is named by the worker id. -/
def newTask (t : Thread) (task : Work) (w : World) : (Nat × Option GoError) × World :=
  -- var wg sync.WaitGroup
  let id := w.tasks
  let w := { w with tasks := w.tasks + 1, wgs := (id, 0) :: w.wgs }
  -- wg.Add(1)
  let w := wgAdd t (WG.wg id) w
  -- ps.taskWG.Add(1)
  let w := wgAdd t WG.taskWG w
  -- go func() { ... }()
  let w := { w with goroutines := (id, task) :: w.goroutines }.log t (Event.go (Thread.worker id))
  -- return &wg, nil
  ((id, none), w)

/-- Wait `wg.Wait()` on the completion signal of worker `id`. In a sequential run the worker,
if it has not run yet, runs now; the pair is what its closure left in the captured variables. -/
def wgWait (py : Python) (t : Thread) (id : Nat) (w : World) :
    Res (Option Handle × Option GoError) :=
  let w := w.log t (Event.wgWait (WG.wg id))
  match w.goroutines.lookup id with
  | none => if wgGet w (WG.wg id) = 0 then Res.ok (none, none) w else Res.blocked w
  | some task =>
    match worker py id task { w with goroutines := w.goroutines.filter (fun g => g.1 != id) } with
    | Res.blocked w => Res.blocked w
    | Res.ok slot w => if wgGet w (WG.wg id) = 0 then Res.ok slot w else Res.blocked w

/-- Method `NewTask`. -/
def NewTask (t : Thread) (task : Work) (w : World) : Res (Option Nat × Option GoError) :=
  -- ps.lock.Lock()
  match lockLock t w with
  | none => Res.blocked w
  | some w =>
    -- defer ps.lock.Unlock()
    let stack := [Deferred.lockUnlock]
    if w.ps.stopped then
      Res.ok (none, some GoError.noNewOperations) (runDeferred t stack w)
    else
      -- return ps.newTask(task)
      let (r, w) := newTask t task w
      Res.ok (some r.1, r.2) (runDeferred t stack w)

/-- The tail of the start goroutine, after `ps.stopWG.Wait()` has returned. -/
def startGoroutineStop (w : World) : Res Unit :=
  let t := Thread.start
  -- python3.PyEval_RestoreThread(state)
  match PyEval_RestoreThread t w with
  | none => Res.blocked w
  | some w =>
    -- python3.Py_Finalize()
    let w := Py_Finalize t w
    -- ps.stoppedWG.Done()
    Res.ok () (wgDone t WG.stoppedWG { w with startWaiting := false })

/-- Method `Finalize`. -/
def Finalize (t : Thread) (w : World) : Res (Option GoError) :=
  -- fmt.Printf("Called Finalize %v\n", from)
  let w := w.log t Event.printf
  -- ps.lock.Lock()
  match lockLock t w with
  | none => Res.blocked w
  | some w =>
    if w.ps.stopped then
      -- return errors.New("Finalize already called on PythonSingleton")
      Res.ok (some GoError.finalizeAlreadyCalled) w
    else
      -- ps.stopped = true
      let w := { w with ps := { w.ps with stopped := true } }
      -- ps.lock.Unlock()
      let w := lockUnlock t w
      -- ps.stopOnce.Do(func() { ... })
      if w.ps.stopOnce then Res.ok none w
      else
        -- go func() { ps.stopWG.Done() }()
        let w := w.log t (Event.go Thread.stopper)
        -- ps.stoppedWG.Wait(); the goroutine just started runs now, and then the start
        -- goroutine, if it sits in ps.stopWG.Wait() and the counter is zero, continues
        let w := w.log t (Event.wgWait WG.stoppedWG)
        let w := wgDone Thread.stopper WG.stopWG w
        let r := if w.startWaiting && wgGet w WG.stopWG == 0 then startGoroutineStop w
                 else Res.ok () w
        match r with
        | Res.blocked w => Res.blocked w
        | Res.ok _ w =>
          if wgGet w WG.stoppedWG = 0 then
            -- the Once is done; return nil
            Res.ok none { w with ps := { w.ps with stopOnce := true } }
          else Res.blocked w

/-- Method `ImportModule`. -/
def ImportModule (py : Python) (t : Thread) (name : String) (w : World) :
    Res (Option Handle × Option GoError) :=
  -- fmt.Printf("Importing module: %s | existing: %v\n", name, ps.LoadedModuleNames())
  let w := w.log t Event.printf
  -- ps.lock.Lock()
  match lockLock t w with
  | none => Res.blocked w
  | some w =>
    -- defer ps.lock.Unlock()
    let stack := [Deferred.lockUnlock]
    if w.ps.stopped then
      Res.ok (none, some GoError.noNewOperations) (runDeferred t stack w)
    else
      -- if mod, ok := ps.modules[name]; ok { return mod, nil }
      match w.ps.modules.lookup name with
      | some mod => Res.ok (mod, none) (runDeferred t stack w)
      | none =>
        -- taskWG, taskErr := ps.newTask(func() { ... })
        let (r, w) := newTask t (Work.importTask name) w
        match r.2 with
        | some taskErr => Res.ok (none, some taskErr) (runDeferred t stack w)
        | none =>
          -- taskWG.Wait()
          match wgWait py t r.1 w with
          | Res.blocked w => Res.blocked w
          | Res.ok (module, err) w =>
            -- ps.modules[name] = module
            let w := { w with ps := { w.ps with modules := mapSet w.ps.modules name module } }
            -- return module, err
            Res.ok (module, err) (runDeferred t stack w)

/-- Method `LoadedModuleNames`. -/
def LoadedModuleNames (w : World) : List String := w.ps.modules.map Prod.fst

/-- The loop of the closure returned by `WithModules`:
`for _, m := range modules { _, err := ps.ImportModule(m); if err != nil { return err } }; return nil`. -/
def importAll (py : Python) (t : Thread) : List String → World → Res (Option GoError)
  | [], w => Res.ok none w
  | m :: rest, w =>
    match ImportModule py t m w with
    | Res.blocked w => Res.blocked w
    | Res.ok (_, some err) w => Res.ok (some err) w
    | Res.ok (_, none) w => importAll py t rest w

/-- The call `opt(ps)`. -/
def applyOption (py : Python) (t : Thread) : PythonSingletonOption → World → Res (Option GoError)
  | PythonSingletonOption.WithModules modules, w => importAll py t modules w
  | PythonSingletonOption.returning err, w => Res.ok err w

/-- The loop `for _, opt := range opts { err := opt(ps); if err != nil { ... return } }` of the
start goroutine; it yields the error that ends the loop, if any. -/
def applyOptions (py : Python) (t : Thread) : List PythonSingletonOption → World → Res (Option GoError)
  | [], w => Res.ok none w
  | opt :: rest, w =>
    -- err := opt(ps)
    match applyOption py t opt (w.log t (Event.option opt)) with
    | Res.blocked w => Res.blocked w
    | Res.ok (some err) w => Res.ok (some err) w
    | Res.ok none w => applyOptions py t rest w

/-- The goroutine `go func() { ... }()` of `initPython`, up to the point where it either
returns or sits in `ps.stopWG.Wait()`. -/
def startGoroutine (py : Python) (opts : List PythonSingletonOption) (w : World) : Res Unit :=
  let t := Thread.start
  -- runtime.LockOSThread()
  let w := LockOSThread t w
  -- python3.Py_Initialize()
  let w := Py_Initialize t w
  -- if !python3.Py_IsInitialized() { result.Err = errors.New(...); return }
  let w := w.log t Event.pyIsInitialized
  if !py.Py_IsInitialized then
    Res.ok () { w with resultErr := some GoError.errorInitializing }
  else
    -- threadingMod := python3.PyImport_ImportModule("threading"); threadingMod.DecRef()
    let w := (w.log t (Event.pyImportModule "threading")).log t Event.decRef
    -- for _, opt := range opts { ... }
    match applyOptions py t opts w with
    | Res.blocked w => Res.blocked w
    | Res.ok (some err) w =>
      -- result.Err = err; return
      Res.ok () { w with resultErr := some err }
    | Res.ok none w =>
      -- state := python3.PyEval_SaveThread()
      let w := PyEval_SaveThread t w
      -- startedWG.Done()
      let w := wgDone t WG.startedWG w
      -- ps.stopWG.Wait()
      Res.ok () { w with startWaiting := true }

/-- Method `initPython`: it starts the start goroutine and returns at once; the `Tuple` it
returns is the pair of `World.startedWG` and `World.resultErr`. -/
def initPython (t : Thread) (w : World) : World :=
  -- var startedWG sync.WaitGroup; startedWG.Add(1)
  let w := wgAdd t WG.startedWG { w with startedWG := 0 }
  -- ps.stoppedWG.Add(1)
  let w := wgAdd t WG.stoppedWG w
  -- ps.stopWG.Add(1)
  let w := wgAdd t WG.stopWG w
  -- result := &Tuple{Result: &startedWG}
  let w := { w with resultErr := none }
  -- go func() { ... }()
  w.log t (Event.go Thread.start)

/-- Function `GetPythonSingleton`: the value returned is the address held by
`pythonSingletonInstance` (`none` is the nil pointer). -/
def GetPythonSingleton (py : Python) (t : Thread) (opts : List PythonSingletonOption)
    (w : World) : Res (Option Nat) :=
  -- singletonOnce.Do(func() { ... })
  if w.singletonOnce then
    -- return pythonSingletonInstance
    Res.ok w.pythonSingletonInstance w
  else
    -- ps := &pythonSingleton{modules: make(map[string]*python3.PyObject)}
    let w := { w with allocs := w.allocs + 1,
                      ps := { taskWG := 0, stopWG := 0, stoppedWG := 0, lock := false,
                              modules := [], stopped := false, stopOnce := false } }
    -- tuple := ps.initPython(opts...)
    let w := initPython t w
    -- startedWG.Wait(); the start goroutine runs now
    let w := w.log t (Event.wgWait WG.startedWG)
    match startGoroutine py opts w with
    | Res.blocked w => Res.blocked w
    | Res.ok _ w =>
      if wgGet w WG.startedWG = 0 then
        -- pythonSingletonInstance = ps; the Once is done; return pythonSingletonInstance
        let w := { w with pythonSingletonInstance := some w.allocs, singletonOnce := true }
        Res.ok w.pythonSingletonInstance w
      else Res.blocked w

/-! ## Part A: sequences of calls -/

/-- A sequence of `GetPythonSingleton` calls, one option list each, issued one after the
other: the values returned, in order, and the final world. A call that never returns ends
the sequence. -/
def getAll (py : Python) (t : Thread) : List (List PythonSingletonOption) → World →
    List (Option Nat) × World
  | [], w => ([], w)
  | opts :: rest, w =>
    match GetPythonSingleton py t opts w with
    | Res.blocked w => ([], w)
    | Res.ok inst w => ((inst :: (getAll py t rest w).1), (getAll py t rest w).2)

/-- Number of times interpreter startup ran: the `Py_Initialize` calls of the trace. -/
def startups (w : World) : Nat := w.trace.count (Thread.start, Event.pyInit)

/-- Number of start goroutines spawned, one per `initPython` call. -/
def initPythonCalls (w : World) : Nat :=
  (w.trace.filter (fun e => e.2 == Event.go Thread.start)).length

/-- The startup options that were called, in call order: the `opt(ps)` calls of the trace. -/
def optionCalls (w : World) : List PythonSingletonOption :=
  w.trace.filterMap (fun e => match e.2 with
    | Event.option opt => some opt
    | _ => none)

/-- Whether an option has nothing to do and returns nil: `WithModules` of no module, or a
caller-written option returning nil. -/
def returnsNil : PythonSingletonOption → Bool
  | PythonSingletonOption.WithModules [] => true
  | PythonSingletonOption.returning none => true
  | _ => false

/-- The options of a list up to and including the first one that is not of the `returnsNil`
kind. -/
def reached : List PythonSingletonOption → List PythonSingletonOption
  | [] => []
  | opt :: rest => opt :: (if returnsNil opt then reached rest else [])

/-- A call on the coordinator's public interface. -/
inductive Call where
  | ImportModule (name : String)
  | NewTask (task : Work)
  | Finalize
deriving DecidableEq, Repr

/-- What a public call returned. -/
inductive Ret where
  | module (mod : Option Handle) (err : Option GoError)
  | signal (wg : Option Nat) (err : Option GoError)
  | error (err : Option GoError)
deriving DecidableEq, Repr

/-- Issue one public call. -/
def runCall (py : Python) (t : Thread) : Call → World → Res Ret
  | Call.ImportModule name, w =>
    match ImportModule py t name w with
    | Res.blocked w => Res.blocked w
    | Res.ok r w => Res.ok (Ret.module r.1 r.2) w
  | Call.NewTask task, w =>
    match NewTask t task w with
    | Res.blocked w => Res.blocked w
    | Res.ok r w => Res.ok (Ret.signal r.1 r.2) w
  | Call.Finalize, w =>
    match Finalize t w with
    | Res.blocked w => Res.blocked w
    | Res.ok r w => Res.ok (Ret.error r) w

/-- Issue public calls one after the other; blocked as soon as one of them never returns. -/
def runCalls (py : Python) (t : Thread) : List Call → World → Res (List Ret)
  | [], w => Res.ok [] w
  | c :: rest, w =>
    match runCall py t c w with
    | Res.blocked w => Res.blocked w
    | Res.ok r w =>
      match runCalls py t rest w with
      | Res.blocked w => Res.blocked w
      | Res.ok rs w => Res.ok (r :: rs) w

/-- The rejection a public call other than `Finalize` gives once `stopped` is set. -/
def rejected : Call → Ret
  | Call.ImportModule _ => Ret.module none (some GoError.noNewOperations)
  | Call.NewTask _ => Ret.signal none (some GoError.noNewOperations)
  | Call.Finalize => Ret.error (some GoError.finalizeAlreadyCalled)

/-- Whether the mutex is held after the events of a trace, given whether it was held before. -/
def heldAfter (held : Bool) : List (Thread × Event) → Bool
  | [] => held
  | (_, Event.mutexLock) :: rest => heldAfter true rest
  | (_, Event.mutexUnlock) :: rest => heldAfter false rest
  | _ :: rest => heldAfter held rest

/-- Whether every `Wait` of a trace happens while the mutex is held, given whether the mutex
is held before the trace. -/
def waitsHeld (held : Bool) : List (Thread × Event) → Bool
  | [] => true
  | (_, Event.mutexLock) :: rest => waitsHeld true rest
  | (_, Event.mutexUnlock) :: rest => waitsHeld false rest
  | (_, Event.wgWait _) :: rest => held && waitsHeld held rest
  | _ :: rest => waitsHeld held rest

/-- A stub interpreter: it initialises, knows the module "foo" (at address 7) and nothing else. -/
def stubPython : Python :=
  { Py_IsInitialized := true,
    PyImport_Import := fun _ name => if name = "foo" then some 7 else none }

/-- A stub interpreter that reports not-initialized after `Py_Initialize`. -/
def deadPython : Python :=
  { Py_IsInitialized := false, PyImport_Import := fun _ _ => none }

/-- The world after the first `GetPythonSingleton()` of a process, on the stub interpreter. -/
def startedWorld : World :=
  match GetPythonSingleton stubPython Thread.caller [] World.init with
  | Res.ok _ w => w
  | Res.blocked w => w

/-! ## Part B: the interleaving machine

Goroutines that execute `NewTask` and `Finalize`, the workers started by `newTask` and the
start goroutine take turns, one source statement per step. -/

/-- Program points of a goroutine inside `NewTask` or `Finalize`: the statement it executes next. -/
inductive Pc where
  /-- In `NewTask`: `ps.lock.Lock()` -/
  | ntLock
  /-- In `NewTask`: `if ps.stopped` -/
  | ntCheck
  /-- In `NewTask`: `ps.newTask(task)` -/
  | ntNewTask
  /-- In `NewTask`: the deferred `ps.lock.Unlock()`; `err` tells whether the error is returned -/
  | ntUnlock (err : Bool)
  /-- The call of `NewTask` has returned -/
  | ntReturned (err : Bool)
  /-- In `Finalize`: `ps.lock.Lock()` -/
  | fLock
  /-- In `Finalize`: `if ps.stopped` -/
  | fCheck
  /-- In `Finalize`: `ps.stopped = true` -/
  | fSet
  /-- In `Finalize`: `ps.lock.Unlock()` -/
  | fUnlock
  /-- In `Finalize`: `ps.stopOnce.Do(...)` -/
  | fOnce
  /-- In `Finalize`: `go func() { ps.stopWG.Done() }()` -/
  | fStopDone
  /-- In `Finalize`: `ps.stoppedWG.Wait()` -/
  | fWait
  /-- The call of `Finalize` has returned -/
  | fReturned (err : Bool)
deriving DecidableEq, Repr

/-- Program points of the worker goroutine of `newTask`. -/
inductive WorkerPc where
  | lockOSThread
  | ensure
  | task
  | release
  | unlockOSThread
  | wgDone
  | taskWGDone
  | exited
deriving DecidableEq, Repr

/-- Program points of the start goroutine from `ps.stopWG.Wait()` on. -/
inductive StartPc where
  | stopWait
  | restoreThread
  | pyFinalize
  | stoppedDone
  | exited
deriving DecidableEq, Repr

/-- A worker goroutine, with two history variables. -/
structure Worker where
  pc : WorkerPc
  /-- The value of `stopped` when `NewTask` started this worker -/
  acceptedStopped : Bool
  /-- The value of `stopped` when this worker called its work function, once it has -/
  begunStopped : Option Bool
deriving DecidableEq, Repr

/-- The shared state and the goroutines. -/
structure Machine where
  /-- The mutex `ps.lock`: the index of the goroutine that locked it, if it is held -/
  lock : Option Nat
  stopped : Bool
  stopOnce : Bool
  taskWG : Nat
  stopWG : Nat
  stoppedWG : Nat
  gil : Option Thread
  callers : List Pc
  workers : List Worker
  start : StartPc
deriving DecidableEq, Repr

/-- The machine when `GetPythonSingleton` has returned: the start goroutine sits in
`ps.stopWG.Wait()` and has released the interpreter lock. -/
def Machine.init : Machine :=
  { lock := none, stopped := false, stopOnce := false, taskWG := 0, stopWG := 1, stoppedWG := 1,
    gil := none, callers := [], workers := [], start := StartPc.stopWait }

/-- The moves of the scheduler. -/
inductive Step where
  /-- A new goroutine calls `NewTask` -/
  | callNewTask
  /-- A new goroutine calls `Finalize` -/
  | callFinalize
  /-- The `i`-th calling goroutine executes its next statement -/
  | caller (i : Nat)
  /-- The `j`-th worker executes its next statement -/
  | worker (j : Nat)
  /-- The start goroutine executes its next statement -/
  | start
deriving DecidableEq, Repr

/-- Move caller `i` to program point `pc`. -/
def Machine.goto (m : Machine) (i : Nat) (pc : Pc) : Machine :=
  { m with callers := m.callers.set i pc }

/-- Replace worker `j`. -/
def Machine.setWorker (m : Machine) (j : Nat) (wk : Worker) : Machine :=
  { m with workers := m.workers.set j wk }

/-- One statement of caller `i`; `none` when the goroutine cannot move (it waits, or has returned). -/
def stepCaller (m : Machine) (i : Nat) : Pc → Option Machine
  | Pc.ntLock => if m.lock.isSome then none else some ({ m with lock := some i }.goto i Pc.ntCheck)
  | Pc.ntCheck => some (m.goto i (if m.stopped then Pc.ntUnlock true else Pc.ntNewTask))
  | Pc.ntNewTask =>
    -- wg.Add(1); ps.taskWG.Add(1); go func() { ... }()
    some ({ m with taskWG := m.taskWG + 1,
                   workers := m.workers ++ [Worker.mk WorkerPc.lockOSThread m.stopped none]
                 }.goto i (Pc.ntUnlock false))
  | Pc.ntUnlock err => some ({ m with lock := none }.goto i (Pc.ntReturned err))
  | Pc.ntReturned _ => none
  | Pc.fLock => if m.lock.isSome then none else some ({ m with lock := some i }.goto i Pc.fCheck)
  | Pc.fCheck =>
    -- the error return leaves the mutex locked
    some (m.goto i (if m.stopped then Pc.fReturned true else Pc.fSet))
  | Pc.fSet => some ({ m with stopped := true }.goto i Pc.fUnlock)
  | Pc.fUnlock => some ({ m with lock := none }.goto i Pc.fOnce)
  | Pc.fOnce => some (m.goto i (if m.stopOnce then Pc.fReturned false else Pc.fStopDone))
  | Pc.fStopDone => some ({ m with stopWG := m.stopWG - 1 }.goto i Pc.fWait)
  | Pc.fWait =>
    if m.stoppedWG = 0 then some ({ m with stopOnce := true }.goto i (Pc.fReturned false))
    else none
  | Pc.fReturned _ => none

/-- One statement of worker `j`. -/
def stepWorker (m : Machine) (j : Nat) (wk : Worker) : Option Machine :=
  match wk.pc with
  | WorkerPc.lockOSThread => some (m.setWorker j { wk with pc := WorkerPc.ensure })
  | WorkerPc.ensure =>
    if m.gil.isSome then none
    else some ({ m with gil := some (Thread.worker j) }.setWorker j { wk with pc := WorkerPc.task })
  | WorkerPc.task =>
    -- task(): the work function is called
    some (m.setWorker j { wk with pc := WorkerPc.release, begunStopped := some m.stopped })
  | WorkerPc.release => some ({ m with gil := none }.setWorker j { wk with pc := WorkerPc.unlockOSThread })
  | WorkerPc.unlockOSThread => some (m.setWorker j { wk with pc := WorkerPc.wgDone })
  | WorkerPc.wgDone => some (m.setWorker j { wk with pc := WorkerPc.taskWGDone })
  | WorkerPc.taskWGDone =>
    some ({ m with taskWG := m.taskWG - 1 }.setWorker j { wk with pc := WorkerPc.exited })
  | WorkerPc.exited => none

/-- One statement of the start goroutine. -/
def stepStart (m : Machine) : Option Machine :=
  match m.start with
  | StartPc.stopWait => if m.stopWG = 0 then some { m with start := StartPc.restoreThread } else none
  | StartPc.restoreThread =>
    if m.gil.isSome then none
    else some { m with gil := some Thread.start, start := StartPc.pyFinalize }
  | StartPc.pyFinalize => some { m with start := StartPc.stoppedDone }
  | StartPc.stoppedDone => some { m with stoppedWG := m.stoppedWG - 1, start := StartPc.exited }
  | StartPc.exited => none

/-- One move of the scheduler; `none` when the chosen goroutine cannot move. -/
def step (m : Machine) : Step → Option Machine
  | Step.callNewTask => some { m with callers := m.callers ++ [Pc.ntLock] }
  | Step.callFinalize => some { m with callers := m.callers ++ [Pc.fLock] }
  | Step.caller i =>
    match m.callers[i]? with
    | none => none
    | some pc => stepCaller m i pc
  | Step.worker j =>
    match m.workers[j]? with
    | none => none
    | some wk => stepWorker m j wk
  | Step.start => stepStart m

/-- A schedule: the moves are made in order; `none` when one of them is not possible. -/
def runSteps : List Step → Machine → Option Machine
  | [], m => some m
  | s :: rest, m =>
    match step m s with
    | none => none
    | some m => runSteps rest m

/-- The program points at which a calling goroutine holds the mutex it has locked; the error
return of `Finalize` is one of them. -/
def holdsMutex : Pc → Bool
  | Pc.ntCheck => true
  | Pc.ntNewTask => true
  | Pc.ntUnlock _ => true
  | Pc.fCheck => true
  | Pc.fSet => true
  | Pc.fUnlock => true
  | Pc.fReturned err => err
  | _ => false

/-- The invariant of the machine: a caller at a program point inside a critical section is the
one that locked the mutex; a caller about to run `ps.newTask` has seen `stopped` false and it
is still false; every worker was started while `stopped` was false. -/
def Inv (m : Machine) : Prop :=
  (∀ (i : Nat) (pc : Pc), m.callers[i]? = some pc → holdsMutex pc = true → m.lock = some i)
  ∧ (∀ i : Nat, m.callers[i]? = some Pc.ntNewTask → m.stopped = false)
  ∧ (∀ wk ∈ m.workers, wk.acceptedStopped = false)

/-- A schedule in which a task is accepted, `Finalize` then sets `stopped`, and the worker
then takes the interpreter lock and calls its work function. -/
def lateStart : List Step :=
  [Step.callNewTask, Step.caller 0, Step.caller 0, Step.caller 0, Step.caller 0,
   Step.callFinalize, Step.caller 1, Step.caller 1, Step.caller 1, Step.caller 1,
   Step.worker 0, Step.worker 0, Step.worker 0]

end Pytasks

/-! ## Theorems -/

namespace Pytasks

/-- A call of `Finalize` that returns nil leaves `stopped` set and the mutex free. -/
theorem Finalize_success_state (t : Thread) (w w1 : World)
    (h : Finalize t w = Res.ok none w1) : w1.ps.stopped = true ∧ w1.ps.lock = false := by
  unfold Finalize at h
  by_cases hl : w.ps.lock = true
  · simp [lockLock, World.log, hl] at h
  · by_cases hs : w.ps.stopped = true
    · simp [lockLock, World.log, hl, hs] at h
    · by_cases ho : w.ps.stopOnce = true <;> by_cases hw : w.startWaiting = true <;>
        by_cases hz : w.ps.stopWG - 1 = 0 <;> by_cases hg : w.gil.isSome = true <;>
        by_cases hd : w.ps.stoppedWG = 0 <;> by_cases hd1 : w.ps.stoppedWG - 1 = 0 <;>
        simp [lockLock, World.log, hl, hs, lockUnlock, wgDone, wgSet, wgGet, startGoroutineStop,
          PyEval_RestoreThread, Py_Finalize, ho, hw, hz, hg, hd, hd1] at h <;>
        subst h <;> exact ⟨rfl, rfl⟩

/-- Once `stopped` is set and the mutex is free, `ImportModule` locks, rejects and unlocks. -/
theorem ImportModule_stopped (py : Python) (t : Thread) (name : String) (w : World)
    (hs : w.ps.stopped = true) (hl : w.ps.lock = false) :
    ImportModule py t name w = Res.ok (none, some GoError.noNewOperations)
      { w with trace := w.trace ++ [(t, Event.printf), (t, Event.mutexLock), (t, Event.mutexUnlock)] } := by
  obtain ⟨_, _, _, ⟨_, _, _, lock, _, stopped, _⟩, _, _, _, _, _, _, _, _, _, _⟩ := w
  simp only at hs hl
  subst hs hl
  simp [ImportModule, lockLock, World.log, runDeferred, runDeferredCall, lockUnlock]

/-- Once `stopped` is set and the mutex is free, `NewTask` locks, rejects and unlocks. -/
theorem NewTask_stopped (t : Thread) (task : Work) (w : World)
    (hs : w.ps.stopped = true) (hl : w.ps.lock = false) :
    NewTask t task w = Res.ok (none, some GoError.noNewOperations)
      { w with trace := w.trace ++ [(t, Event.mutexLock), (t, Event.mutexUnlock)] } := by
  obtain ⟨_, _, _, ⟨_, _, _, lock, _, stopped, _⟩, _, _, _, _, _, _, _, _, _, _⟩ := w
  simp only at hs hl
  subst hs hl
  simp [NewTask, lockLock, World.log, runDeferred, runDeferredCall, lockUnlock]

/-- Once `stopped` is set and the mutex is free, `Finalize` locks, rejects and returns with
the mutex still locked. -/
theorem Finalize_stopped (t : Thread) (w : World)
    (hs : w.ps.stopped = true) (hl : w.ps.lock = false) :
    Finalize t w = Res.ok (some GoError.finalizeAlreadyCalled)
      { w with ps := { w.ps with lock := true },
               trace := w.trace ++ [(t, Event.printf), (t, Event.mutexLock)] } := by
  obtain ⟨_, _, _, ⟨_, _, _, lock, _, stopped, _⟩, _, _, _, _, _, _, _, _, _, _⟩ := w
  simp only at hs hl
  subst hs hl
  simp [Finalize, lockLock, World.log]

/-- While the mutex is held, `ImportModule` never returns. -/
theorem ImportModule_locked (py : Python) (t : Thread) (name : String) (w : World)
    (hl : w.ps.lock = true) :
    ImportModule py t name w = Res.blocked (w.log t Event.printf) := by
  simp [ImportModule, lockLock, World.log, hl]

/-- While the mutex is held, `NewTask` never returns. -/
theorem NewTask_locked (t : Thread) (task : Work) (w : World) (hl : w.ps.lock = true) :
    NewTask t task w = Res.blocked w := by
  simp [NewTask, lockLock, hl]

/-- While the mutex is held, `Finalize` never returns. -/
theorem Finalize_locked (t : Thread) (w : World) (hl : w.ps.lock = true) :
    Finalize t w = Res.blocked (w.log t Event.printf) := by
  simp [Finalize, lockLock, World.log, hl]

/-- After `stopped` is set, any run of `ImportModule` and `NewTask` calls is rejected call by
call and changes nothing but the trace. -/
theorem runCalls_stopped (py : Python) (t : Thread) (calls : List Call) :
    ∀ w : World, w.ps.stopped = true → w.ps.lock = false → Call.Finalize ∉ calls →
      ∃ w2, runCalls py t calls w = Res.ok (calls.map rejected) w2
        ∧ w2.ps = w.ps ∧ w2.goroutines = w.goroutines ∧ w2.tasks = w.tasks
        ∧ w2.wgs = w.wgs ∧ w2.imports = w.imports ∧ w2.gil = w.gil := by
  induction calls with
  | nil => intro w _ _ _; exact ⟨w, rfl, rfl, rfl, rfl, rfl, rfl, rfl⟩
  | cons c rest ih =>
    intro w hs hl hc
    have hrest : Call.Finalize ∉ rest := fun h => hc (List.mem_cons_of_mem _ h)
    cases c with
    | Finalize => exact absurd (List.mem_cons_self _ _) hc
    | ImportModule name =>
      obtain ⟨w2, h2, hps, hg, ht, hw, hi, hgil⟩ :=
        ih { w with trace := w.trace ++ [(t, Event.printf), (t, Event.mutexLock), (t, Event.mutexUnlock)] }
          hs hl hrest
      refine ⟨w2, ?_, hps, hg, ht, hw, hi, hgil⟩
      simp [runCalls, runCall, ImportModule_stopped py t name w hs hl, h2, rejected]
    | NewTask task =>
      obtain ⟨w2, h2, hps, hg, ht, hw, hi, hgil⟩ :=
        ih { w with trace := w.trace ++ [(t, Event.mutexLock), (t, Event.mutexUnlock)] }
          hs hl hrest
      refine ⟨w2, ?_, hps, hg, ht, hw, hi, hgil⟩
      simp [runCalls, runCall, NewTask_stopped t task w hs hl, h2, rejected]

/-- After a `Finalize` call has returned nil, every `ImportModule(name)` issued before a
second `Finalize` returns a nil handle with a non-nil error, every such `NewTask(work)` returns
no completion signal with a non-nil error and starts no worker (the list of started
goroutines, the task counter and the in-flight counter are unchanged, and no import reaches the
interpreter), and a second `Finalize` then returns a non-nil error. -/
theorem rejection_before_second_Finalize (py : Python) (t : Thread) (w w1 : World)
    (calls : List Call) (hfin : Finalize t w = Res.ok none w1) (hcalls : Call.Finalize ∉ calls) :
    ∃ w2, runCalls py t calls w1 = Res.ok (calls.map rejected) w2
      ∧ (∀ r ∈ calls.map rejected,
          r = Ret.module none (some GoError.noNewOperations)
          ∨ r = Ret.signal none (some GoError.noNewOperations))
      ∧ w2.goroutines = w1.goroutines ∧ w2.tasks = w1.tasks ∧ w2.ps.taskWG = w1.ps.taskWG
      ∧ w2.imports = w1.imports ∧ w2.ps.stopped = true ∧ w2.ps.lock = false := by
  obtain ⟨hs, hl⟩ := Finalize_success_state t w w1 hfin
  obtain ⟨w2, h2, hps, hg, ht, _, hi, _⟩ := runCalls_stopped py t calls w1 hs hl hcalls
  refine ⟨w2, h2, ?_, hg, ht, by rw [hps], hi, by rw [hps]; exact hs, by rw [hps]; exact hl⟩
  intro r hr
  obtain ⟨c, hc, rfl⟩ := List.mem_map.mp hr
  cases c with
  | Finalize => exact absurd hc hcalls
  | ImportModule name => exact Or.inl rfl
  | NewTask task => exact Or.inr rfl

/-- C1 (post-finalize rejection), evaluated on the code. The claim asks that after a successful
`Finalize` every subsequent `ImportModule` and `NewTask` returns a non-nil error. At
`Finalize(); Finalize(); ImportModule("foo")` after startup the first `Finalize` returns nil,
the second returns its error, and the `ImportModule` never returns; likewise a `NewTask` in its
place. In the order of the repository's test, where `ImportModule` and `NewTask` come before
the second `Finalize`, all three calls return errors. For every coordinator: after a `Finalize`
that returned nil, any sequence of `ImportModule` and `NewTask` calls is rejected call by call
with a nil result, without starting a worker or calling the interpreter; the next `Finalize`
returns a non-nil error and leaves the mutex locked; and from then on no `ImportModule` and no
`NewTask` returns. -/
theorem calls_after_second_Finalize_never_return :
    (runCalls stubPython Thread.caller [Call.Finalize, Call.Finalize] startedWorld).val
        = some [Ret.error none, Ret.error (some GoError.finalizeAlreadyCalled)]
    ∧ (runCalls stubPython Thread.caller
        [Call.Finalize, Call.Finalize, Call.ImportModule "foo"] startedWorld).val = none
    ∧ (runCalls stubPython Thread.caller
        [Call.Finalize, Call.Finalize, Call.NewTask (Work.userTask 0)] startedWorld).val = none
    ∧ (runCalls stubPython Thread.caller
        [Call.Finalize, Call.ImportModule "foo", Call.NewTask (Work.userTask 0), Call.Finalize]
        startedWorld).val
        = some [Ret.error none, Ret.module none (some GoError.noNewOperations),
                Ret.signal none (some GoError.noNewOperations),
                Ret.error (some GoError.finalizeAlreadyCalled)]
    ∧ (∀ (py : Python) (t : Thread) (w w1 : World) (calls : List Call),
        Finalize t w = Res.ok none w1 → Call.Finalize ∉ calls →
        ∃ w2 w3, runCalls py t calls w1 = Res.ok (calls.map rejected) w2
          ∧ (∀ r ∈ calls.map rejected,
              r = Ret.module none (some GoError.noNewOperations)
              ∨ r = Ret.signal none (some GoError.noNewOperations))
          ∧ w2.goroutines = w1.goroutines ∧ w2.tasks = w1.tasks
          ∧ w2.ps.taskWG = w1.ps.taskWG ∧ w2.imports = w1.imports
          ∧ Finalize t w2 = Res.ok (some GoError.finalizeAlreadyCalled) w3
          ∧ w3.ps.lock = true
          ∧ (∀ name, (ImportModule py t name w3).val = none)
          ∧ (∀ task, (NewTask t task w3).val = none)) := by
  refine ⟨rfl, rfl, rfl, rfl, ?_⟩
  intro py t w w1 calls hfin hcalls
  obtain ⟨w2, h2, hr, hg, ht, hk, hi, hs, hl⟩ :=
    rejection_before_second_Finalize py t w w1 calls hfin hcalls
  refine ⟨w2, _, h2, hr, hg, ht, hk, hi, Finalize_stopped t w2 hs hl, rfl, ?_, ?_⟩
  · intro name; rw [ImportModule_locked _ _ _ _ rfl]; rfl
  · intro task; rw [NewTask_locked _ _ _ rfl]; rfl

/-- C4 (startup failure), evaluated on the code: when the interpreter reports not-initialized
after `Py_Initialize`, and likewise when a startup option returns an error, the start goroutine
stores the error in the result tuple and returns without `startedWG.Done()`, so the first
`GetPythonSingleton` call never returns: no error reaches the caller. No instance is published
and the `Once` is not done. This holds for every interpreter, option list and world in which
the `Once` is not done, and in particular for the two concrete first calls evaluated at the
end. -/
theorem startup_failure_never_returns :
    (∀ (py : Python) (t : Thread) (opts : List PythonSingletonOption) (w : World),
        w.singletonOnce = false → py.Py_IsInitialized = false →
        (GetPythonSingleton py t opts w).val = none
        ∧ (GetPythonSingleton py t opts w).world.resultErr = some GoError.errorInitializing
        ∧ (GetPythonSingleton py t opts w).world.singletonOnce = false
        ∧ (GetPythonSingleton py t opts w).world.pythonSingletonInstance
            = w.pythonSingletonInstance)
    ∧ (∀ (py : Python) (t : Thread) (err : GoError) (rest : List PythonSingletonOption)
        (w : World), w.singletonOnce = false → py.Py_IsInitialized = true →
        (GetPythonSingleton py t (PythonSingletonOption.returning (some err) :: rest) w).val = none
        ∧ (GetPythonSingleton py t (PythonSingletonOption.returning (some err) :: rest)
            w).world.resultErr = some err
        ∧ (GetPythonSingleton py t (PythonSingletonOption.returning (some err) :: rest)
            w).world.singletonOnce = false
        ∧ (GetPythonSingleton py t (PythonSingletonOption.returning (some err) :: rest)
            w).world.pythonSingletonInstance = w.pythonSingletonInstance)
    ∧ (GetPythonSingleton deadPython Thread.caller [] World.init).val = none
    ∧ (GetPythonSingleton deadPython Thread.caller [] World.init).world.resultErr
        = some GoError.errorInitializing
    ∧ (GetPythonSingleton deadPython Thread.caller [] World.init).world.startedWG = 1
    ∧ (GetPythonSingleton deadPython Thread.caller [] World.init).world.pythonSingletonInstance
        = none
    ∧ (GetPythonSingleton stubPython Thread.caller
        [PythonSingletonOption.returning (some (GoError.optionError 1))] World.init).val = none
    ∧ (GetPythonSingleton stubPython Thread.caller
        [PythonSingletonOption.returning (some (GoError.optionError 1))] World.init).world.resultErr
        = some (GoError.optionError 1)
    ∧ (GetPythonSingleton stubPython Thread.caller
        [PythonSingletonOption.returning (some (GoError.optionError 1))]
        World.init).world.pythonSingletonInstance = none := by
  refine ⟨?_, ?_, rfl, rfl, rfl, rfl, rfl, rfl, rfl⟩
  · intro py t opts w ho hi
    simp [GetPythonSingleton, startGoroutine, ho, hi, Res.val, Res.world, initPython, wgAdd, wgSet,
      wgGet, World.log, LockOSThread, Py_Initialize]
  · intro py t err rest w ho hi
    simp [GetPythonSingleton, startGoroutine, applyOptions, applyOption, ho, hi, Res.val,
      Res.world, initPython, wgAdd, wgSet, wgGet, World.log, LockOSThread, Py_Initialize]

/-- C6 (startup preload), evaluated on the code: a first `GetPythonSingleton` whose first
option is `WithModules` of a non-empty list never returns, whatever the interpreter answers to
imports. The start goroutine holds the interpreter lock and the mutex and waits in
`ImportModule` for the worker it started, which has pinned its thread and waits in
`PyGILState_Ensure` for the interpreter lock; no import call has reached the interpreter and
the module cache is empty. In particular so for `GetPythonSingleton(WithModules(["foo"]))` with
an interpreter in which importing "foo" succeeds. -/
theorem preload_never_returns :
    (∀ (py : Python) (t : Thread) (m : String) (ms : List String)
        (rest : List PythonSingletonOption) (w : World),
        w.singletonOnce = false → py.Py_IsInitialized = true →
        (GetPythonSingleton py t (PythonSingletonOption.WithModules (m :: ms) :: rest) w).val = none
        ∧ (GetPythonSingleton py t (PythonSingletonOption.WithModules (m :: ms) :: rest)
            w).world.ps.modules = []
        ∧ (GetPythonSingleton py t (PythonSingletonOption.WithModules (m :: ms) :: rest)
            w).world.imports = w.imports
        ∧ (GetPythonSingleton py t (PythonSingletonOption.WithModules (m :: ms) :: rest)
            w).world.gil = some Thread.start
        ∧ (GetPythonSingleton py t (PythonSingletonOption.WithModules (m :: ms) :: rest)
            w).world.ps.lock = true
        ∧ (GetPythonSingleton py t (PythonSingletonOption.WithModules (m :: ms) :: rest)
            w).world.trace.getLast? = some (Thread.worker w.tasks, Event.lockOSThread))
    ∧ (GetPythonSingleton stubPython Thread.caller
        [PythonSingletonOption.WithModules ["foo"]] World.init).val = none
    ∧ (GetPythonSingleton stubPython Thread.caller
        [PythonSingletonOption.WithModules ["foo"]] World.init).world.gil = some Thread.start
    ∧ (GetPythonSingleton stubPython Thread.caller
        [PythonSingletonOption.WithModules ["foo"]] World.init).world.trace.getLast?
        = some (Thread.worker 0, Event.lockOSThread)
    ∧ (GetPythonSingleton stubPython Thread.caller
        [PythonSingletonOption.WithModules ["foo"]] World.init).world.ps.lock = true
    ∧ (GetPythonSingleton stubPython Thread.caller
        [PythonSingletonOption.WithModules ["foo"]] World.init).world.imports = []
    ∧ (GetPythonSingleton stubPython Thread.caller
        [PythonSingletonOption.WithModules ["foo"]] World.init).world.ps.modules = []
    ∧ stubPython.PyImport_Import [] "foo" = some 7 := by
  refine ⟨?_, rfl, rfl, rfl, rfl, rfl, rfl, rfl⟩
  intro py t m ms rest w ho hi
  simp [GetPythonSingleton, startGoroutine, applyOptions, applyOption, importAll, ImportModule,
    lockLock, newTask, wgWait, worker, PyGILState_Ensure, List.lookup,
    ho, hi, Res.val, Res.world, initPython, wgAdd, wgSet, wgGet, World.log, LockOSThread,
    Py_Initialize]

/-- C7 (mutex release), evaluated on the code: whenever `stopped` is set and the mutex is
free, `Finalize` returns its error with the mutex still locked, and after it `NewTask`,
`ImportModule` and `Finalize` never return. In particular so for the second `Finalize` of
`Finalize(); Finalize()` after startup. -/
theorem finalize_error_path_keeps_mutex :
    (∀ (py : Python) (t : Thread) (w : World), w.ps.stopped = true → w.ps.lock = false →
        (Finalize t w).val = some (some GoError.finalizeAlreadyCalled)
        ∧ (Finalize t w).world.ps.lock = true
        ∧ (∀ task, (NewTask t task (Finalize t w).world).val = none)
        ∧ (∀ name, (ImportModule py t name (Finalize t w).world).val = none)
        ∧ (Finalize t (Finalize t w).world).val = none)
    ∧ (runCalls stubPython Thread.caller [Call.Finalize, Call.Finalize] startedWorld).val
        = some [Ret.error none, Ret.error (some GoError.finalizeAlreadyCalled)]
    ∧ (runCalls stubPython Thread.caller [Call.Finalize, Call.Finalize]
        startedWorld).world.ps.lock = true
    ∧ (runCalls stubPython Thread.caller
        [Call.Finalize, Call.Finalize, Call.NewTask (Work.userTask 0)] startedWorld).val = none
    ∧ (runCalls stubPython Thread.caller
        [Call.Finalize, Call.Finalize, Call.ImportModule "foo"] startedWorld).val = none
    ∧ (runCalls stubPython Thread.caller
        [Call.Finalize, Call.Finalize, Call.Finalize] startedWorld).val = none := by
  refine ⟨?_, rfl, rfl, rfl, rfl, rfl⟩
  intro py t w hs hl
  rw [Finalize_stopped t w hs hl]
  refine ⟨rfl, rfl, ?_, ?_, ?_⟩
  · intro task; rw [NewTask_locked _ _ _ rfl]; rfl
  · intro name; rw [ImportModule_locked _ _ _ _ rfl]; rfl
  · rw [Finalize_locked _ _ rfl]; rfl

/-- The events of an `ImportModule` call that finds nothing in the cache, up to and including
its wait on the completion signal of the worker it started. -/
theorem ImportModule_miss (py : Python) (t : Thread) (name : String) (w : World)
    (hs : w.ps.stopped = false) (hl : w.ps.lock = false)
    (hc : w.ps.modules.lookup name = none) (hg : w.gil = none) :
    ∃ w1, ImportModule py t name w
        = Res.ok (py.PyImport_Import w.imports name,
            if (py.PyImport_Import w.imports name).isNone then some GoError.errorImportingModule
            else none) w1
      ∧ w1.ps.stopped = false ∧ w1.ps.lock = false
      ∧ w1.ps.modules = mapSet w.ps.modules name (py.PyImport_Import w.imports name)
      ∧ w1.imports = w.imports ++ [name] ∧ w1.gil = none ∧ w1.ps.taskWG = w.ps.taskWG
      ∧ w1.trace = w.trace ++
          ([(t, Event.printf), (t, Event.mutexLock), (t, Event.wgAdd (WG.wg w.tasks)),
            (t, Event.wgAdd WG.taskWG), (t, Event.go (Thread.worker w.tasks)),
            (t, Event.wgWait (WG.wg w.tasks)),
            (Thread.worker w.tasks, Event.lockOSThread),
            (Thread.worker w.tasks, Event.gilEnsure w.gstates),
            (Thread.worker w.tasks, Event.pyImport name)]
          ++ (if (py.PyImport_Import w.imports name).isNone
                then [(Thread.worker w.tasks, Event.pyErrPrint)] else [])
          ++ [(Thread.worker w.tasks, Event.gilRelease w.gstates),
              (Thread.worker w.tasks, Event.unlockOSThread),
              (Thread.worker w.tasks, Event.wgDone (WG.wg w.tasks)),
              (Thread.worker w.tasks, Event.wgDone WG.taskWG),
              (t, Event.mutexUnlock)]) := by
  cases hm : py.PyImport_Import w.imports name with
  | none =>
    simp [ImportModule, lockLock, World.log, runDeferred, runDeferredCall, lockUnlock, hs, hl, hc,
      newTask, wgAdd, wgSet, wgGet, wgWait, worker, LockOSThread, PyGILState_Ensure, hg, runTask,
      hm, wgDone, UnlockOSThread, PyGILState_Release, List.lookup]
  | some m =>
    simp [ImportModule, lockLock, World.log, runDeferred, runDeferredCall, lockUnlock, hs, hl, hc,
      newTask, wgAdd, wgSet, wgGet, wgWait, worker, LockOSThread, PyGILState_Ensure, hg, runTask,
      hm, wgDone, UnlockOSThread, PyGILState_Release, List.lookup]

/-- An `ImportModule` call that finds nothing in the cache while the interpreter lock is held
never returns: it waits, holding the mutex, for a worker that waits for the interpreter lock. -/
theorem ImportModule_miss_blocked (py : Python) (t : Thread) (name : String) (w : World)
    (hs : w.ps.stopped = false) (hl : w.ps.lock = false)
    (hc : w.ps.modules.lookup name = none) (hg : w.gil.isSome = true) :
    ∃ w1, ImportModule py t name w = Res.blocked w1
      ∧ w1.ps.lock = true ∧ w1.gil = w.gil ∧ w1.imports = w.imports
      ∧ w1.ps.modules = w.ps.modules
      ∧ w1.singletonOnce = w.singletonOnce
      ∧ w1.pythonSingletonInstance = w.pythonSingletonInstance
      ∧ w1.allocs = w.allocs ∧ w1.resultErr = w.resultErr ∧ w1.startedWG = w.startedWG
      ∧ w1.trace = w.trace ++
          [(t, Event.printf), (t, Event.mutexLock), (t, Event.wgAdd (WG.wg w.tasks)),
           (t, Event.wgAdd WG.taskWG), (t, Event.go (Thread.worker w.tasks)),
           (t, Event.wgWait (WG.wg w.tasks)),
           (Thread.worker w.tasks, Event.lockOSThread)] := by
  simp [ImportModule, lockLock, World.log, runDeferred, runDeferredCall, lockUnlock, hs, hl, hc,
    newTask, wgAdd, wgSet, wgGet, wgWait, worker, LockOSThread, PyGILState_Ensure, hg,
    List.lookup]

/-- With the mutex free and `stopped` unset, a name found in the cache is returned from the
cache: the call locks, looks up and unlocks. -/
theorem ImportModule_hit (py : Python) (t : Thread) (name : String) (w : World)
    (h : Option Handle) (hs : w.ps.stopped = false) (hl : w.ps.lock = false)
    (hc : w.ps.modules.lookup name = some h) :
    ImportModule py t name w = Res.ok (h, none)
      { w with trace := w.trace ++
          [(t, Event.printf), (t, Event.mutexLock), (t, Event.mutexUnlock)] } := by
  obtain ⟨_, _, _, ⟨_, _, _, lock, modules, stopped, _⟩, _, _, _, _, _, _, _, _, _, _⟩ := w
  simp only at hs hl hc
  subst hs hl
  simp [ImportModule, lockLock, World.log, runDeferred, runDeferredCall, lockUnlock, hc]

/-- A map write is found by the next lookup of the same key. -/
theorem lookup_mapSet (m : List (String × Option Handle)) (k : String) (v : Option Handle) :
    (mapSet m k v).lookup k = some v := by
  simp [mapSet, List.lookup]

/-- C8 (nil error implies non-nil handle), evaluated on the code: on a running coordinator
(not stopped, mutex and interpreter lock free), for a name that is not cached and that the
interpreter fails to import, the first `ImportModule(name)` returns a nil handle with an error
and writes the nil handle to the cache, and the next `ImportModule(name)` returns the nil handle
with a nil error. In particular so for `ImportModule("bar")` twice after startup, the
interpreter having no module "bar". -/
theorem cached_failure_returns_nil_nil :
    (∀ (py : Python) (t : Thread) (name : String) (w : World),
        w.ps.stopped = false → w.ps.lock = false → w.gil = none →
        w.ps.modules.lookup name = none → py.PyImport_Import w.imports name = none →
        (ImportModule py t name w).val = some (none, some GoError.errorImportingModule)
        ∧ (ImportModule py t name w).world.ps.modules.lookup name = some none
        ∧ (ImportModule py t name (ImportModule py t name w).world).val = some (none, none))
    ∧ stubPython.PyImport_Import [] "bar" = none
    ∧ (runCalls stubPython Thread.caller [Call.ImportModule "bar", Call.ImportModule "bar"]
        startedWorld).val
        = some [Ret.module none (some GoError.errorImportingModule), Ret.module none none]
    ∧ (runCalls stubPython Thread.caller [Call.ImportModule "bar"]
        startedWorld).world.ps.modules = [("bar", none)] := by
  refine ⟨?_, rfl, rfl, rfl⟩
  intro py t name w hs hl hg hc hm
  obtain ⟨w1, h1, hs1, hl1, hm1, _⟩ := ImportModule_miss py t name w hs hl hc hg
  rw [hm] at h1 hm1
  have hc1 : w1.ps.modules.lookup name = some none := by rw [hm1]; exact lookup_mapSet _ _ _
  rw [h1]
  simp only [Res.world, Res.val]
  rw [ImportModule_hit py t name w1 none hs1 hl1 hc1]
  exact ⟨rfl, hc1, rfl⟩

/-- C2 (module identity and caching): on a coordinator that is not stopped (its mutex is then
free between calls, see `mutex_free_while_not_stopped`), for a name that is a key of the module cache, `ImportModule(name)`
returns the handle stored in the cache with a nil error, and the world changes only by the
three trace events printf, lock, unlock: no worker is started, no import call reaches the
interpreter, the cache is unchanged. Consequently, whenever a first `ImportModule(name)` has
returned a handle, a second `ImportModule(name)` returns the same handle with a nil error,
again without starting a worker or calling the interpreter; and the first call does return
whenever the interpreter lock is free. -/
theorem cached_import_identity (py : Python) (t : Thread) (name : String) (w : World)
    (hs : w.ps.stopped = false) (hl : w.ps.lock = false) :
    (∀ h, w.ps.modules.lookup name = some h →
        ImportModule py t name w = Res.ok (h, none)
          { w with trace := w.trace ++
              [(t, Event.printf), (t, Event.mutexLock), (t, Event.mutexUnlock)] })
    ∧ (∀ m1 e1 w1, ImportModule py t name w = Res.ok (m1, e1) w1 →
        ∃ w2, ImportModule py t name w1 = Res.ok (m1, none) w2
          ∧ w2.ps.modules = w1.ps.modules ∧ w2.imports = w1.imports
          ∧ w2.goroutines = w1.goroutines ∧ w2.tasks = w1.tasks)
    ∧ (w.gil = none → ∃ m1 e1 w1, ImportModule py t name w = Res.ok (m1, e1) w1) := by
  refine ⟨fun h hc => ImportModule_hit py t name w h hs hl hc, ?_, ?_⟩
  · intro m1 e1 w1 h1
    cases hc : w.ps.modules.lookup name with
    | some h =>
      rw [ImportModule_hit py t name w h hs hl hc] at h1
      injection h1 with hv hw
      injection hv with hm he
      subst hm hw
      exact ⟨_, ImportModule_hit py t name _ h hs hl hc, rfl, rfl, rfl, rfl⟩
    | none =>
      cases hg : w.gil with
      | some g =>
        obtain ⟨wb, hb, _⟩ := ImportModule_miss_blocked py t name w hs hl hc (by simp [hg])
        rw [hb] at h1
        exact Res.noConfusion h1
      | none =>
        obtain ⟨w1a, ha, hs1, hl1, hm1, _⟩ := ImportModule_miss py t name w hs hl hc hg
        rw [ha] at h1
        injection h1 with hv hw
        injection hv with hm he
        subst hw
        have hc1 : w1a.ps.modules.lookup name = some m1 := by
          rw [hm1, ← hm]; exact lookup_mapSet _ _ _
        exact ⟨_, ImportModule_hit py t name w1a m1 hs1 hl1 hc1, rfl, rfl, rfl, rfl⟩
  · intro hg
    cases hc : w.ps.modules.lookup name with
    | some h => exact ⟨_, _, _, ImportModule_hit py t name w h hs hl hc⟩
    | none =>
      obtain ⟨w1a, ha, _⟩ := ImportModule_miss py t name w hs hl hc hg
      exact ⟨_, _, _, ha⟩

/-- C2 at a concrete input: the two calls of the repository's test `TestModulePointer`, after
the first `GetPythonSingleton()`, return the same handle. -/
theorem cached_import_identity_witness :
    ∃ w1 w2, ImportModule stubPython Thread.caller "foo" startedWorld = Res.ok (some 7, none) w1
      ∧ ImportModule stubPython Thread.caller "foo" w1 = Res.ok (some 7, none) w2
      ∧ w2.imports = ["foo"] := by
  obtain ⟨w2, h2, _, hi, _⟩ :=
    (cached_import_identity stubPython Thread.caller "foo" startedWorld rfl rfl).2.1
      (some 7) none _ rfl
  exact ⟨_, w2, rfl, h2, by rw [hi]; rfl⟩

/-- C5 (task execution primitive): for every unit of work handed to `newTask`, as worker `id`:
`newTask` sets the completion signal to 1, adds 1 to the in-flight counter `taskWG`, starts the
worker and returns `(&wg, nil)`. When the worker is scheduled with the interpreter lock free,
its events are, in this order: pin the OS thread, `PyGILState_Ensure` (returning the token
`gstate`), the work function once, `PyGILState_Release` with that same token, unpin,
`wg.Done()` on the completion signal, `taskWG.Done()`; afterwards the in-flight counter is back
to its value before `newTask`, the completion signal is 0 and the interpreter lock is free.
While the interpreter lock is held the worker only pins its thread and waits: the work has not
run and the completion signal is still 1. -/
theorem newTask_worker_events (py : Python) (t : Thread) (task : Work) (w : World) :
    (newTask t task w).1 = (w.tasks, none)
    ∧ (newTask t task w).2.ps.taskWG = w.ps.taskWG + 1
    ∧ wgGet (newTask t task w).2 (WG.wg w.tasks) = 1
    ∧ (newTask t task w).2.goroutines = (w.tasks, task) :: w.goroutines
    ∧ (newTask t task w).2.trace = w.trace ++
        [(t, Event.wgAdd (WG.wg w.tasks)), (t, Event.wgAdd WG.taskWG),
         (t, Event.go (Thread.worker w.tasks))]
    ∧ (w.gil = none →
        ∃ slot w2, wgWait py t w.tasks (newTask t task w).2 = Res.ok slot w2
          ∧ w2.trace = (newTask t task w).2.trace ++
              ([(t, Event.wgWait (WG.wg w.tasks)),
                (Thread.worker w.tasks, Event.lockOSThread),
                (Thread.worker w.tasks, Event.gilEnsure w.gstates)]
              ++ (match task with
                  | Work.userTask label => [(Thread.worker w.tasks, Event.task label)]
                  | Work.importTask name =>
                    (Thread.worker w.tasks, Event.pyImport name) ::
                      (if (py.PyImport_Import w.imports name).isNone
                        then [(Thread.worker w.tasks, Event.pyErrPrint)] else []))
              ++ [(Thread.worker w.tasks, Event.gilRelease w.gstates),
                  (Thread.worker w.tasks, Event.unlockOSThread),
                  (Thread.worker w.tasks, Event.wgDone (WG.wg w.tasks)),
                  (Thread.worker w.tasks, Event.wgDone WG.taskWG)])
          ∧ w2.ps.taskWG = w.ps.taskWG ∧ wgGet w2 (WG.wg w.tasks) = 0 ∧ w2.gil = none)
    ∧ (w.gil.isSome = true →
        ∃ w2, wgWait py t w.tasks (newTask t task w).2 = Res.blocked w2
          ∧ w2.trace = (newTask t task w).2.trace ++
              [(t, Event.wgWait (WG.wg w.tasks)), (Thread.worker w.tasks, Event.lockOSThread)]
          ∧ w2.ps.taskWG = w.ps.taskWG + 1 ∧ wgGet w2 (WG.wg w.tasks) = 1) := by
  refine ⟨rfl, ?_, ?_, ?_, ?_, ?_, ?_⟩
  · simp [newTask, wgAdd, wgSet, wgGet, World.log]
  · simp [newTask, wgAdd, wgSet, wgGet, World.log, List.lookup]
  · simp [newTask, wgAdd, wgSet, wgGet, World.log]
  · simp [newTask, wgAdd, wgSet, wgGet, World.log]
  · intro hg
    cases task with
    | userTask label =>
      simp [newTask, wgAdd, wgSet, wgGet, wgWait, worker, World.log, runDeferred, runDeferredCall,
        LockOSThread, PyGILState_Ensure, hg, runTask, wgDone, UnlockOSThread, PyGILState_Release,
        List.lookup]
      exact ⟨_, _, _, ⟨⟨rfl, rfl⟩, rfl⟩, by simp [List.lookup]⟩
    | importTask name =>
      cases hm : py.PyImport_Import w.imports name <;>
      simp [newTask, wgAdd, wgSet, wgGet, wgWait, worker, World.log, runDeferred, runDeferredCall,
        LockOSThread, PyGILState_Ensure, hg, runTask, wgDone, UnlockOSThread, PyGILState_Release,
        List.lookup, hm] <;>
      exact ⟨_, _, _, ⟨⟨rfl, rfl⟩, rfl⟩, by simp [List.lookup]⟩
  · intro hg
    simp [newTask, wgAdd, wgSet, wgGet, wgWait, worker, World.log,
      LockOSThread, PyGILState_Ensure, hg, List.lookup]

/-- C5 at a concrete input: a caller task with label 5 submitted after startup. -/
theorem newTask_worker_events_witness :
    ∃ slot w2, wgWait stubPython Thread.caller 0
        (newTask Thread.caller (Work.userTask 5) startedWorld).2 = Res.ok slot w2
      ∧ w2.trace = startedWorld.trace ++
          [(Thread.caller, Event.wgAdd (WG.wg 0)), (Thread.caller, Event.wgAdd WG.taskWG),
           (Thread.caller, Event.go (Thread.worker 0)),
           (Thread.caller, Event.wgWait (WG.wg 0)),
           (Thread.worker 0, Event.lockOSThread),
           (Thread.worker 0, Event.gilEnsure 0),
           (Thread.worker 0, Event.task 5),
           (Thread.worker 0, Event.gilRelease 0),
           (Thread.worker 0, Event.unlockOSThread),
           (Thread.worker 0, Event.wgDone (WG.wg 0)),
           (Thread.worker 0, Event.wgDone WG.taskWG)] := by
  obtain ⟨slot, w2, h, ht, _⟩ :=
    (newTask_worker_events stubPython Thread.caller (Work.userTask 5) startedWorld).2.2.2.2.2.1 rfl
  exact ⟨slot, w2, h, by rw [ht]; rfl⟩

/-- If every `Wait` of a trace happens with the mutex held, the mutex is held after each
prefix of the trace that ends just before a `Wait`. -/
theorem heldAfter_of_waitsHeld (seg : List (Thread × Event)) :
    ∀ (held : Bool) (pre post : List (Thread × Event)) (x : Thread) (g : WG),
      waitsHeld held seg = true → seg = pre ++ (x, Event.wgWait g) :: post →
      heldAfter held pre = true := by
  induction seg with
  | nil => intro held pre post x g _ h; simp at h
  | cons e rest ih =>
    intro held pre post x g hw h
    cases pre with
    | nil =>
      simp only [List.nil_append, List.cons.injEq] at h
      obtain ⟨he, _⟩ := h
      subst he
      simp only [waitsHeld, Bool.and_eq_true] at hw
      simpa [heldAfter] using hw.1
    | cons p pre =>
      simp only [List.cons_append, List.cons.injEq] at h
      obtain ⟨he, hrest⟩ := h
      subst he
      obtain ⟨pt, pe⟩ := e
      cases pe <;> simp only [waitsHeld, heldAfter, Bool.and_eq_true] at hw ⊢ <;>
        first
          | exact ih _ _ _ _ _ hw hrest
          | exact ih _ _ _ _ _ hw.2 hrest

/-- C9, the claim as stated, fails: in `ImportModule("foo")` after startup the call waits on the
completion signal of the import worker, and the events before that wait leave the mutex held. -/
theorem mutex_released_before_wait_fails :
    ¬ (∀ (pre post : List (Thread × Event)) (g : WG),
        (ImportModule stubPython Thread.caller "foo" startedWorld).world.trace
          = startedWorld.trace ++ (pre ++ (Thread.caller, Event.wgWait g) :: post) →
        heldAfter false pre = false) := by
  intro h
  have h1 := h
    [(Thread.caller, Event.printf), (Thread.caller, Event.mutexLock),
     (Thread.caller, Event.wgAdd (WG.wg 0)), (Thread.caller, Event.wgAdd WG.taskWG),
     (Thread.caller, Event.go (Thread.worker 0))]
    [(Thread.worker 0, Event.lockOSThread), (Thread.worker 0, Event.gilEnsure 0),
     (Thread.worker 0, Event.pyImport "foo"), (Thread.worker 0, Event.gilRelease 0),
     (Thread.worker 0, Event.unlockOSThread), (Thread.worker 0, Event.wgDone (WG.wg 0)),
     (Thread.worker 0, Event.wgDone WG.taskWG), (Thread.caller, Event.mutexUnlock)]
    (WG.wg 0) rfl
  simp [heldAfter] at h1

/-- C9 as amended: `ImportModule` holds the mutex across its task wait. In every execution of
`ImportModule` that submits an import task (mutex free, not stopped, name not in the cache),
the call does wait on the worker's completion signal, and at every `Wait` of the call's trace the
mutex locked at entry is still held. If the interpreter lock is free the call returns, its one
`Unlock` being the last event, after the cache write; if the interpreter lock is held the call
never returns and the mutex stays locked. -/
theorem mutex_held_across_wait (py : Python) (t : Thread) (name : String) (w : World)
    (hs : w.ps.stopped = false) (hl : w.ps.lock = false)
    (hc : w.ps.modules.lookup name = none) :
    (∃ post, (ImportModule py t name w).world.trace = w.trace ++
        ([(t, Event.printf), (t, Event.mutexLock), (t, Event.wgAdd (WG.wg w.tasks)),
          (t, Event.wgAdd WG.taskWG), (t, Event.go (Thread.worker w.tasks))]
          ++ (t, Event.wgWait (WG.wg w.tasks)) :: post))
    ∧ (∀ (pre post : List (Thread × Event)) (x : Thread) (g : WG),
        (ImportModule py t name w).world.trace = w.trace ++ (pre ++ (x, Event.wgWait g) :: post) →
        heldAfter false pre = true)
    ∧ (w.gil = none →
        (ImportModule py t name w).val.isSome = true
        ∧ (ImportModule py t name w).world.trace.getLast? = some (t, Event.mutexUnlock)
        ∧ (ImportModule py t name w).world.ps.lock = false
        ∧ (ImportModule py t name w).world.ps.modules.lookup name
            = some (py.PyImport_Import w.imports name))
    ∧ (w.gil.isSome = true →
        (ImportModule py t name w).val = none
        ∧ (ImportModule py t name w).world.ps.lock = true) := by
  cases hg : w.gil with
  | some holder =>
    obtain ⟨w1, h1, hl1, _, _, _, _, _, _, _, _, ht⟩ :=
      ImportModule_miss_blocked py t name w hs hl hc (by simp [hg])
    refine ⟨⟨_, by rw [h1]; simpa [Res.world] using ht⟩, ?_, ?_, ?_⟩
    · intro pre post x g h
      rw [h1] at h
      simp only [Res.world, ht] at h
      exact heldAfter_of_waitsHeld _ false pre post x g (by simp [waitsHeld])
        (List.append_cancel_left h)
    · intro h; simp at h
    · intro _; rw [h1]; exact ⟨rfl, hl1⟩
  | none =>
    obtain ⟨w1, h1, _, hl1, hm1, _, _, _, ht⟩ := ImportModule_miss py t name w hs hl hc hg
    refine ⟨⟨_, by rw [h1]; simpa [Res.world] using ht⟩, ?_, ?_, ?_⟩
    · intro pre post x g h
      rw [h1] at h
      simp only [Res.world, ht] at h
      refine heldAfter_of_waitsHeld _ false pre post x g ?_ (List.append_cancel_left h)
      cases py.PyImport_Import w.imports name <;> simp [waitsHeld]
    · intro _
      rw [h1]
      refine ⟨rfl, ?_, hl1, ?_⟩
      · simp only [Res.world, ht]
        cases py.PyImport_Import w.imports name <;> simp
      · simp only [Res.world, hm1]; exact lookup_mapSet _ _ _
    · intro h; simp at h

/-- C9 as amended, at a concrete input: `ImportModule("foo")` after startup returns, and the
five events before its wait leave the mutex held. -/
theorem mutex_held_across_wait_witness :
    (ImportModule stubPython Thread.caller "foo" startedWorld).val.isSome = true
    ∧ heldAfter false
        [(Thread.caller, Event.printf), (Thread.caller, Event.mutexLock),
         (Thread.caller, Event.wgAdd (WG.wg 0)), (Thread.caller, Event.wgAdd WG.taskWG),
         (Thread.caller, Event.go (Thread.worker 0))] = true := by
  have h := mutex_held_across_wait stubPython Thread.caller "foo" startedWorld rfl rfl rfl
  exact ⟨(h.2.2.1 rfl).1, h.2.1 _ _ Thread.caller (WG.wg 0) rfl⟩

/-- Reading a list after one position was overwritten. -/
theorem set_lookup_cases {α : Type} (l : List α) (i j : Nat) (a b : α)
    (h : (l.set i a)[j]? = some b) : (j = i ∧ b = a) ∨ (j ≠ i ∧ l[j]? = some b) := by
  by_cases hij : i = j
  · subst hij
    rw [List.getElem?_set] at h
    simp only [if_true] at h
    split at h
    · exact Or.inl ⟨rfl, (Option.some.inj h).symm⟩
    · exact Option.noConfusion h
  · rw [List.getElem?_set_ne hij] at h
    exact Or.inr ⟨fun e => hij e.symm, h⟩

/-- Reading a list after one element was appended. -/
theorem append_lookup_cases {α : Type} (l : List α) (j : Nat) (a b : α)
    (h : (l ++ [a])[j]? = some b) : l[j]? = some b ∨ b = a := by
  by_cases hj : j < l.length
  · rw [List.getElem?_append_left hj] at h; exact Or.inl h
  · rw [List.getElem?_append_right (Nat.le_of_not_lt hj)] at h
    cases hk : j - l.length with
    | zero => rw [hk] at h; simp at h; exact Or.inr h.symm
    | succ k => rw [hk] at h; simp at h

/-- A statement of a calling goroutine keeps the mutex with the goroutine that locked it. -/
theorem stepCaller_owner (m m2 : Machine) (i : Nat) (pc : Pc) (hpc : m.callers[i]? = some pc)
    (hinv : Inv m) (h : stepCaller m i pc = some m2) :
    ∀ (j : Nat) (q : Pc), m2.callers[j]? = some q → holdsMutex q = true → m2.lock = some j := by
  obtain ⟨h1, _, _⟩ := hinv
  have hown : holdsMutex pc = true → m.lock = some i := h1 i pc hpc
  cases pc <;> simp only [stepCaller] at h <;> (try split at h) <;>
    simp only [Option.some.injEq, reduceCtorEq] at h <;> (try subst h) <;>
    intro j q hq hh <;> simp only [Machine.goto] at hq ⊢ <;>
    rcases set_lookup_cases _ _ _ _ _ hq with ⟨rfl, rfl⟩ | ⟨hne, hq2⟩
  all_goals first
    | rfl
    | (simp [holdsMutex] at hh; done)
    | exact hown rfl
    | exact h1 j q hq2 hh
    | (have hj := h1 j q hq2 hh; have hi := hown rfl; rw [hi] at hj
       exact absurd (Option.some.inj hj).symm hne)
    | (have hj := h1 j q hq2 hh; simp_all)

/-- A statement of a calling goroutine keeps `stopped` false for every caller that is about to
run `ps.newTask`. -/
theorem stepCaller_accept (m m2 : Machine) (i : Nat) (pc : Pc) (hpc : m.callers[i]? = some pc)
    (hinv : Inv m) (h : stepCaller m i pc = some m2) :
    ∀ j : Nat, m2.callers[j]? = some Pc.ntNewTask → m2.stopped = false := by
  obtain ⟨h1, h2, _⟩ := hinv
  have hown : holdsMutex pc = true → m.lock = some i := h1 i pc hpc
  cases pc <;> simp only [stepCaller] at h <;> (try split at h) <;>
    simp only [Option.some.injEq, reduceCtorEq] at h <;> (try subst h) <;>
    intro j hq <;> simp only [Machine.goto] at hq ⊢ <;>
    rcases set_lookup_cases _ _ _ _ _ hq with ⟨rfl, hq1⟩ | ⟨hne, hq2⟩
  all_goals first
    | (simp at hq1; done)
    | exact h2 j hq2
    | (have hj := h1 j _ hq2 rfl; have hi := hown rfl; rw [hi] at hj
       exact absurd (Option.some.inj hj).symm hne)
    | simp_all

/-- A statement of a calling goroutine starts workers only while `stopped` is false. -/
theorem stepCaller_workers (m m2 : Machine) (i : Nat) (pc : Pc) (hpc : m.callers[i]? = some pc)
    (hinv : Inv m) (h : stepCaller m i pc = some m2) :
    ∀ wk ∈ m2.workers, wk.acceptedStopped = false := by
  obtain ⟨_, h2, h3⟩ := hinv
  cases pc <;> simp only [stepCaller] at h <;> (try split at h) <;>
    simp only [Option.some.injEq, reduceCtorEq] at h <;> (try subst h) <;>
    intro wk hwk <;> simp only [Machine.goto] at hwk
  all_goals first
    | exact h3 wk hwk
    | (rcases List.mem_append.mp hwk with hm | hm
       · exact h3 wk hm
       · rw [List.mem_singleton.mp hm]; exact h2 i hpc)

/-- Every move of the scheduler preserves the invariant. -/
theorem step_inv (m m2 : Machine) (s : Step) (hinv : Inv m) (h : step m s = some m2) :
    Inv m2 := by
  cases s with
  | callNewTask =>
    obtain ⟨h1, h2, h3⟩ := hinv
    simp only [step, Option.some.injEq] at h
    subst h
    refine ⟨?_, ?_, h3⟩
    · intro j q hq hh
      rcases append_lookup_cases _ _ _ _ hq with hq2 | rfl
      · exact h1 j q hq2 hh
      · simp [holdsMutex] at hh
    · intro j hq
      rcases append_lookup_cases _ _ _ _ hq with hq2 | hq2
      · exact h2 j hq2
      · simp at hq2
  | callFinalize =>
    obtain ⟨h1, h2, h3⟩ := hinv
    simp only [step, Option.some.injEq] at h
    subst h
    refine ⟨?_, ?_, h3⟩
    · intro j q hq hh
      rcases append_lookup_cases _ _ _ _ hq with hq2 | rfl
      · exact h1 j q hq2 hh
      · simp [holdsMutex] at hh
    · intro j hq
      rcases append_lookup_cases _ _ _ _ hq with hq2 | hq2
      · exact h2 j hq2
      · simp at hq2
  | caller i =>
    simp only [step] at h
    cases hpc : m.callers[i]? with
    | none => rw [hpc] at h; exact Option.noConfusion h
    | some pc =>
      rw [hpc] at h
      exact ⟨stepCaller_owner m m2 i pc hpc hinv h, stepCaller_accept m m2 i pc hpc hinv h,
        stepCaller_workers m m2 i pc hpc hinv h⟩
  | worker j =>
    obtain ⟨h1, h2, h3⟩ := hinv
    simp only [step] at h
    cases hwk : m.workers[j]? with
    | none => rw [hwk] at h; exact Option.noConfusion h
    | some wk =>
      rw [hwk] at h
      have hacc : wk.acceptedStopped = false := h3 wk (List.getElem?_mem hwk)
      simp only [stepWorker] at h
      split at h <;> (try split at h) <;>
        simp only [Option.some.injEq, reduceCtorEq] at h <;> (try subst h) <;>
        refine ⟨h1, h2, ?_⟩ <;> intro x hx <;> simp only [Machine.setWorker] at hx <;>
        rcases List.mem_or_eq_of_mem_set hx with hm | rfl <;>
        first | exact h3 x hm | exact hacc
  | start =>
    obtain ⟨h1, h2, h3⟩ := hinv
    simp only [step, stepStart] at h
    split at h <;> (try split at h) <;>
      simp only [Option.some.injEq, reduceCtorEq] at h <;> (try subst h) <;>
      exact ⟨h1, h2, h3⟩

/-- The invariant holds when `GetPythonSingleton` has returned. -/
theorem init_inv : Inv Machine.init := by
  refine ⟨?_, ?_, ?_⟩
  · intro i pc h; simp [Machine.init] at h
  · intro i h; simp [Machine.init] at h
  · intro wk h; simp [Machine.init] at h

/-- The invariant holds after every schedule. -/
theorem runSteps_inv (steps : List Step) :
    ∀ m m2 : Machine, Inv m → runSteps steps m = some m2 → Inv m2 := by
  induction steps with
  | nil => intro m m2 hinv h; simp only [runSteps, Option.some.injEq] at h; exact h ▸ hinv
  | cons s rest ih =>
    intro m m2 hinv h
    simp only [runSteps] at h
    cases hs : step m s with
    | none => rw [hs] at h; exact Option.noConfusion h
    | some m1 => rw [hs] at h; exact ih m1 m2 (step_inv m m1 s hinv hs) h

/-- C10, the claim as stated, fails: in the schedule `lateStart` the worker of a task accepted
by `NewTask` calls its work function after `Finalize` has set `stopped` and released the
mutex. -/
theorem task_begins_after_stopped :
    ¬ (∀ (steps : List Step) (m : Machine), runSteps steps Machine.init = some m →
        ∀ wk ∈ m.workers, wk.begunStopped ≠ some true) := by
  intro h
  have h1 := h lateStart _ rfl (Worker.mk WorkerPc.release false (some true))
    (List.mem_singleton.mpr rfl)
  exact h1 rfl

/-- C10 as amended: no task is accepted after `stopped` becomes true. In every state reachable
by interleaving `NewTask` calls, worker goroutines, `Finalize` calls and the start goroutine,
every worker was started by a `NewTask` that held the mutex and found `stopped` false, at a
moment when `stopped` was still false. (A worker accepted before `Finalize` may still call its
work function after `stopped` has become true.) -/
theorem no_task_accepted_after_stopped (steps : List Step) (m : Machine)
    (h : runSteps steps Machine.init = some m) :
    (∀ wk ∈ m.workers, wk.acceptedStopped = false)
    ∧ (∀ i : Nat, m.callers[i]? = some Pc.ntNewTask → m.stopped = false ∧ m.lock = some i) := by
  obtain ⟨h1, h2, h3⟩ := runSteps_inv steps Machine.init m init_inv h
  exact ⟨h3, fun i hi => ⟨h2 i hi, h1 i _ hi rfl⟩⟩

/-- C10 as amended, at a concrete input: in the schedule `lateStart` the one worker was
accepted while `stopped` was false. -/
theorem no_task_accepted_after_stopped_witness :
    ∃ m, runSteps lateStart Machine.init = some m
      ∧ m.workers.map Worker.acceptedStopped = [false] ∧ m.stopped = true := by
  refine ⟨_, rfl, ?_, rfl⟩
  have h := (no_task_accepted_after_stopped lateStart _ rfl).1
    (Worker.mk WorkerPc.release false (some true)) (List.mem_singleton.mpr rfl)
  exact congrArg (fun b => [b]) h

/-- Logging the call of an option changes the trace only. -/
theorem log_option_facts (w : World) (t : Thread) (opt : PythonSingletonOption) :
    (w.log t (Event.option opt)).singletonOnce = w.singletonOnce
    ∧ (w.log t (Event.option opt)).pythonSingletonInstance = w.pythonSingletonInstance
    ∧ (w.log t (Event.option opt)).allocs = w.allocs
    ∧ startups (w.log t (Event.option opt)) = startups w
    ∧ initPythonCalls (w.log t (Event.option opt)) = initPythonCalls w
    ∧ optionCalls (w.log t (Event.option opt)) = optionCalls w ++ [opt]
    ∧ (w.log t (Event.option opt)).gil = w.gil
    ∧ (w.log t (Event.option opt)).ps = w.ps
    ∧ w.log t (Event.option opt) = { w with trace := (w.log t (Event.option opt)).trace } := by
  refine ⟨rfl, rfl, rfl, ?_, ?_, ?_, rfl, rfl, rfl⟩
  · simp [startups, World.log, List.count_append]
  · simp [initPythonCalls, World.log, List.filter_append]
  · simp [optionCalls, World.log, List.filterMap_append]

/-- While the start goroutine holds the interpreter lock, the loop of `WithModules` either has
nothing to import and returns nil in the same world, or never returns; it changes none of the
package variables, runs no startup and calls no option. -/
theorem importAll_startup (py : Python) (t : Thread) (modules : List String) (w : World)
    (hg : w.gil.isSome = true) (hl : w.ps.lock = false) (hs : w.ps.stopped = false)
    (hm : w.ps.modules = []) :
    (importAll py t modules w).world.singletonOnce = w.singletonOnce
    ∧ (importAll py t modules w).world.pythonSingletonInstance = w.pythonSingletonInstance
    ∧ (importAll py t modules w).world.allocs = w.allocs
    ∧ startups (importAll py t modules w).world = startups w
    ∧ initPythonCalls (importAll py t modules w).world = initPythonCalls w
    ∧ optionCalls (importAll py t modules w).world = optionCalls w
    ∧ (∀ e w1, importAll py t modules w = Res.ok e w1 → w1 = w ∧ e = none ∧ modules = []) := by
  cases modules with
  | nil =>
    refine ⟨rfl, rfl, rfl, rfl, rfl, rfl, ?_⟩
    intro e w1 h
    simp only [importAll, Res.ok.injEq] at h
    exact ⟨h.2.symm, h.1.symm, rfl⟩
  | cons m rest =>
    obtain ⟨w1, h1, _, _, _, _, ho, hi, ha, _, _, ht⟩ :=
      ImportModule_miss_blocked py t m w hs hl (by rw [hm]; rfl) hg
    simp only [importAll, h1, Res.world]
    refine ⟨ho, hi, ha, ?_, ?_, ?_, ?_⟩
    · simp [startups, ht, List.count_append]
    · simp [initPythonCalls, ht, List.filter_append]
    · simp [optionCalls, ht, List.filterMap_append]
    · intro e w2 h; exact Res.noConfusion h

/-- While the start goroutine holds the interpreter lock, the option loop calls the options in
order up to and including the first one that is not of the `returnsNil` kind, each once; it
returns nil exactly when every option is of that kind; it changes none of the package
variables and runs no startup; when it returns, the world differs only in its trace. -/
theorem applyOptions_startup (py : Python) (t : Thread) (opts : List PythonSingletonOption) :
    ∀ (w : World), w.gil.isSome = true → w.ps.lock = false → w.ps.stopped = false →
      w.ps.modules = [] →
      (applyOptions py t opts w).world.singletonOnce = w.singletonOnce
      ∧ (applyOptions py t opts w).world.pythonSingletonInstance = w.pythonSingletonInstance
      ∧ (applyOptions py t opts w).world.allocs = w.allocs
      ∧ startups (applyOptions py t opts w).world = startups w
      ∧ initPythonCalls (applyOptions py t opts w).world = initPythonCalls w
      ∧ optionCalls (applyOptions py t opts w).world = optionCalls w ++ reached opts
      ∧ (∀ e w1, applyOptions py t opts w = Res.ok e w1 → w1 = { w with trace := w1.trace })
      ∧ ((applyOptions py t opts w).val = some none ↔ opts.all returnsNil = true) := by
  induction opts with
  | nil =>
    intro w _ _ _ _
    refine ⟨rfl, rfl, rfl, rfl, rfl, by simp [applyOptions, Res.world, reached], ?_, ?_⟩
    · intro e w1 h
      simp only [applyOptions, Res.ok.injEq] at h
      rw [← h.2]
    · simp [applyOptions, Res.val]
  | cons opt rest ih =>
    intro w hg hl hs hm
    obtain ⟨l1, l2, l3, l4, l5, l6, l7, l8, l9⟩ := log_option_facts w t opt
    simp only [applyOptions]
    generalize w.log t (Event.option opt) = w2 at l1 l2 l3 l4 l5 l6 l7 l8 l9 ⊢
    have hg2 : w2.gil.isSome = true := by rw [l7]; exact hg
    have hl2 : w2.ps.lock = false := by rw [l8]; exact hl
    have hs2 : w2.ps.stopped = false := by rw [l8]; exact hs
    have hm2 : w2.ps.modules = [] := by rw [l8]; exact hm
    obtain ⟨i1, i2, i3, i4, i5, i6, i7, i8⟩ := ih w2 hg2 hl2 hs2 hm2
    have hrec : (applyOptions py t rest w2).world.singletonOnce = w.singletonOnce
        ∧ (applyOptions py t rest w2).world.pythonSingletonInstance = w.pythonSingletonInstance
        ∧ (applyOptions py t rest w2).world.allocs = w.allocs
        ∧ startups (applyOptions py t rest w2).world = startups w
        ∧ initPythonCalls (applyOptions py t rest w2).world = initPythonCalls w
        ∧ optionCalls (applyOptions py t rest w2).world = optionCalls w ++ (opt :: reached rest)
        ∧ (∀ e w1, applyOptions py t rest w2 = Res.ok e w1 → w1 = { w with trace := w1.trace })
        ∧ ((applyOptions py t rest w2).val = some none ↔ rest.all returnsNil = true) := by
      refine ⟨by rw [i1, l1], by rw [i2, l2], by rw [i3, l3], by rw [i4, l4], by rw [i5, l5],
        by rw [i6, l6]; simp, ?_, i8⟩
      intro e w1 h
      have h7 := i7 e w1 h
      rw [l9] at h7
      exact h7
    cases opt with
    | returning err =>
      cases err with
      | none =>
        simpa only [applyOption, reached, returnsNil, if_true, List.all_cons, Bool.true_and]
          using hrec
      | some e =>
        simp only [applyOption, Res.world, Res.val, reached, returnsNil, List.all_cons,
          Bool.false_and]
        refine ⟨l1, l2, l3, l4, l5, by rw [l6]; simp, ?_, by simp⟩
        intro e1 w1 h
        simp only [Res.ok.injEq] at h
        rw [← h.2]
        exact l9
    | WithModules modules =>
      cases modules with
      | nil =>
        simpa only [applyOption, importAll, reached, returnsNil, if_true, List.all_cons,
          Bool.true_and] using hrec
      | cons m ms =>
        obtain ⟨w1, h1, _, _, _, _, ho, hi, ha, _, _, ht⟩ :=
          ImportModule_miss_blocked py t m w2 hs2 hl2 (by rw [hm2]; rfl) hg2
        simp only [applyOption, importAll, h1, Res.world, Res.val, reached, returnsNil,
          List.all_cons, Bool.false_and]
        refine ⟨by rw [ho, l1], by rw [hi, l2], by rw [ha, l3], ?_, ?_, ?_, ?_, by simp⟩
        · rw [← l4]; simp [startups, ht, List.count_append]
        · rw [← l5]; simp [initPythonCalls, ht, List.filter_append]
        · have : optionCalls w1 = optionCalls w2 := by
            simp [optionCalls, ht, List.filterMap_append]
          rw [this, l6]; simp
        · intro e w3 h; exact Res.noConfusion h


/-- The start goroutine calls `Py_Initialize` once, starts no further start goroutine, touches
none of the package variables, and, when the interpreter is initialized, calls the options in
order up to and including the first one that is not of the `returnsNil` kind. It reaches
`startedWG.Done()` and parks exactly when the interpreter is initialized and every option is
of the `returnsNil` kind; otherwise, if it returns at all, `startedWG` is left as it was. -/
theorem startGoroutine_facts (py : Python) (opts : List PythonSingletonOption) (w : World)
    (hl : w.ps.lock = false) (hs : w.ps.stopped = false) (hm : w.ps.modules = []) :
    (startGoroutine py opts w).world.singletonOnce = w.singletonOnce
    ∧ (startGoroutine py opts w).world.pythonSingletonInstance = w.pythonSingletonInstance
    ∧ (startGoroutine py opts w).world.allocs = w.allocs
    ∧ startups (startGoroutine py opts w).world = startups w + 1
    ∧ initPythonCalls (startGoroutine py opts w).world = initPythonCalls w
    ∧ optionCalls (startGoroutine py opts w).world
        = optionCalls w ++ (if py.Py_IsInitialized then reached opts else [])
    ∧ (∀ u w1, startGoroutine py opts w = Res.ok u w1 →
        w1.ps = w.ps
        ∧ w1.startedWG
            = if (py.Py_IsInitialized && opts.all returnsNil) = true then w.startedWG - 1
              else w.startedWG)
    ∧ ((py.Py_IsInitialized && opts.all returnsNil) = true →
        (startGoroutine py opts w).val = some ()) := by
  rcases Bool.eq_false_or_eq_true py.Py_IsInitialized with hinit | hinit
  · have hst : startups ((((Py_Initialize Thread.start (LockOSThread Thread.start w)).log
        Thread.start Event.pyIsInitialized).log Thread.start (Event.pyImportModule "threading")).log
        Thread.start Event.decRef) = startups w + 1 := by
      simp [startups, World.log, Py_Initialize, LockOSThread, List.count_append]
    have hin : initPythonCalls ((((Py_Initialize Thread.start (LockOSThread Thread.start w)).log
        Thread.start Event.pyIsInitialized).log Thread.start (Event.pyImportModule "threading")).log
        Thread.start Event.decRef) = initPythonCalls w := by
      simp [initPythonCalls, World.log, Py_Initialize, LockOSThread, List.filter_append]
    have hop : optionCalls ((((Py_Initialize Thread.start (LockOSThread Thread.start w)).log
        Thread.start Event.pyIsInitialized).log Thread.start (Event.pyImportModule "threading")).log
        Thread.start Event.decRef) = optionCalls w := by
      simp [optionCalls, World.log, Py_Initialize, LockOSThread, List.filterMap_append]
    have e1 : ((((Py_Initialize Thread.start (LockOSThread Thread.start w)).log
        Thread.start Event.pyIsInitialized).log Thread.start (Event.pyImportModule "threading")).log
        Thread.start Event.decRef).singletonOnce = w.singletonOnce := by
      simp [World.log, Py_Initialize, LockOSThread]
    have e2 : ((((Py_Initialize Thread.start (LockOSThread Thread.start w)).log
        Thread.start Event.pyIsInitialized).log Thread.start (Event.pyImportModule "threading")).log
        Thread.start Event.decRef).pythonSingletonInstance = w.pythonSingletonInstance := by
      simp [World.log, Py_Initialize, LockOSThread]
    have e3 : ((((Py_Initialize Thread.start (LockOSThread Thread.start w)).log
        Thread.start Event.pyIsInitialized).log Thread.start (Event.pyImportModule "threading")).log
        Thread.start Event.decRef).allocs = w.allocs := by
      simp [World.log, Py_Initialize, LockOSThread]
    have e4 : ((((Py_Initialize Thread.start (LockOSThread Thread.start w)).log
        Thread.start Event.pyIsInitialized).log Thread.start (Event.pyImportModule "threading")).log
        Thread.start Event.decRef).ps = w.ps := by
      simp [World.log, Py_Initialize, LockOSThread]
    have e5 : ((((Py_Initialize Thread.start (LockOSThread Thread.start w)).log
        Thread.start Event.pyIsInitialized).log Thread.start (Event.pyImportModule "threading")).log
        Thread.start Event.decRef).startedWG = w.startedWG := by
      simp [World.log, Py_Initialize, LockOSThread]
    have key := applyOptions_startup py Thread.start opts
      ((((Py_Initialize Thread.start (LockOSThread Thread.start w)).log Thread.start
        Event.pyIsInitialized).log Thread.start (Event.pyImportModule "threading")).log Thread.start
        Event.decRef)
      (by simp [World.log, Py_Initialize, LockOSThread])
      (by simpa [World.log, Py_Initialize, LockOSThread] using hl)
      (by simpa [World.log, Py_Initialize, LockOSThread] using hs)
      (by simpa [World.log, Py_Initialize, LockOSThread] using hm)
    simp only [startGoroutine, hinit, Bool.not_true, Bool.false_eq_true, if_false, if_true,
      Bool.true_and]
    generalize ((((Py_Initialize Thread.start (LockOSThread Thread.start w)).log Thread.start
        Event.pyIsInitialized).log Thread.start (Event.pyImportModule "threading")).log Thread.start
        Event.decRef) = W at hst hin hop e1 e2 e3 e4 e5 key ⊢
    obtain ⟨k1, k2, k3, k4, k5, k6, k7, k8⟩ := key
    rw [e1] at k1
    rw [e2] at k2
    rw [e3] at k3
    rw [hst] at k4
    rw [hin] at k5
    rw [hop] at k6
    cases hr : applyOptions py Thread.start opts W with
    | blocked w1 =>
      rw [hr] at k1 k2 k3 k4 k5 k6 k8
      simp only [Res.world, Res.val, reduceCtorEq, false_iff] at k1 k2 k3 k4 k5 k6 k8
      simp only [Res.world, Res.val]
      refine ⟨k1, k2, k3, k4, k5, k6, fun u w2 h => Res.noConfusion h, ?_⟩
      intro hall; exact absurd hall k8
    | ok e w1 =>
      have hw := k7 e w1 hr
      have hps : w1.ps = w.ps := by rw [hw]; exact e4
      have hsw : w1.startedWG = w.startedWG := by rw [hw]; exact e5
      rw [hr] at k1 k2 k3 k4 k5 k6 k8
      simp only [Res.world, Res.val, Option.some.injEq] at k1 k2 k3 k4 k5 k6 k8
      cases e with
      | some err =>
        have hall : ¬ (opts.all returnsNil = true) := fun h => by
          have := k8.mpr h; exact Option.noConfusion this
        simp only [Res.world, Res.val, Res.ok.injEq, true_and]
        refine ⟨k1, k2, k3, k4, k5, k6, ?_, fun h => absurd h hall⟩
        intro u w2 h
        rw [← h, if_neg hall]
        exact ⟨hps, hsw⟩
      | none =>
        have hall : opts.all returnsNil = true := k8.mp rfl
        simp only [Res.world, Res.val, Res.ok.injEq, true_and]
        refine ⟨k1, k2, k3, ?_, ?_, ?_, ?_, fun _ => trivial⟩
        · rw [← k4]; simp [startups, PyEval_SaveThread, wgDone, wgSet, World.log, List.count_append]
        · rw [← k5]
          simp [initPythonCalls, PyEval_SaveThread, wgDone, wgSet, World.log, List.filter_append]
        · rw [← k6]
          simp [optionCalls, PyEval_SaveThread, wgDone, wgSet, World.log, List.filterMap_append]
        · intro u w2 h
          rw [← h, if_pos hall]
          simp only [PyEval_SaveThread, wgDone, wgSet, wgGet, World.log]
          exact ⟨hps, by rw [hsw]⟩
  · simp [startGoroutine, hinit, Res.world, Res.val, World.log, LockOSThread, Py_Initialize,
      startups, initPythonCalls, optionCalls, List.count_append, List.filter_append,
      List.filterMap_append]


/-- Once the `Once` is done, `GetPythonSingleton` returns the published instance and changes
nothing. -/
theorem GetPythonSingleton_done (py : Python) (t : Thread) (opts : List PythonSingletonOption)
    (w : World) (h : w.singletonOnce = true) :
    GetPythonSingleton py t opts w = Res.ok w.pythonSingletonInstance w := by
  simp [GetPythonSingleton, h]

/-- Once the `Once` is done, every further `GetPythonSingleton` call returns the published
instance and the world stays as it is. -/
theorem getAll_done (py : Python) (t : Thread) (calls : List (List PythonSingletonOption))
    (w : World) (h : w.singletonOnce = true) :
    getAll py t calls w = (List.replicate calls.length w.pythonSingletonInstance, w) := by
  induction calls with
  | nil => rfl
  | cons opts rest ih =>
    simp only [getAll, GetPythonSingleton_done py t opts w h, ih, List.length_cons,
      List.replicate_succ]

/-- The first `GetPythonSingleton` call allocates one `pythonSingleton`, calls `initPython`
once, runs `Py_Initialize` once and calls the options in order up to and including the first
one that is not of the `returnsNil` kind. It returns exactly when the interpreter is
initialized and every option is of the `returnsNil` kind; it then returns the object it
allocated, publishes it and marks the `Once` done, with the mutex free and `stopped` unset.
Otherwise it never returns and publishes nothing. -/
theorem GetPythonSingleton_fresh (py : Python) (t : Thread) (opts : List PythonSingletonOption)
    (w : World) (h : w.singletonOnce = false) :
    (GetPythonSingleton py t opts w).world.allocs = w.allocs + 1
    ∧ startups (GetPythonSingleton py t opts w).world = startups w + 1
    ∧ initPythonCalls (GetPythonSingleton py t opts w).world = initPythonCalls w + 1
    ∧ optionCalls (GetPythonSingleton py t opts w).world
        = optionCalls w ++ (if py.Py_IsInitialized then reached opts else [])
    ∧ (GetPythonSingleton py t opts w).val
        = (if (py.Py_IsInitialized && opts.all returnsNil) = true then some (some (w.allocs + 1))
           else none)
    ∧ (GetPythonSingleton py t opts w).world.singletonOnce
        = (py.Py_IsInitialized && opts.all returnsNil)
    ∧ (GetPythonSingleton py t opts w).world.pythonSingletonInstance
        = (if (py.Py_IsInitialized && opts.all returnsNil) = true then some (w.allocs + 1)
           else w.pythonSingletonInstance)
    ∧ ((py.Py_IsInitialized && opts.all returnsNil) = true →
        (GetPythonSingleton py t opts w).world.ps.lock = false
        ∧ (GetPythonSingleton py t opts w).world.ps.stopped = false) := by
  have hst : startups ((initPython t { w with allocs := w.allocs + 1, ps := ⟨0, 0, 0, false, [], false, false⟩ }).log t (Event.wgWait WG.startedWG)) = startups w := by
    simp [startups, World.log, initPython, wgAdd, wgSet, List.count_append]
  have hin : initPythonCalls ((initPython t { w with allocs := w.allocs + 1, ps := ⟨0, 0, 0, false, [], false, false⟩ }).log t (Event.wgWait WG.startedWG)) = initPythonCalls w + 1 := by
    simp [initPythonCalls, World.log, initPython, wgAdd, wgSet, List.filter_append]
  have hop : optionCalls ((initPython t { w with allocs := w.allocs + 1, ps := ⟨0, 0, 0, false, [], false, false⟩ }).log t (Event.wgWait WG.startedWG)) = optionCalls w := by
    simp [optionCalls, World.log, initPython, wgAdd, wgSet, List.filterMap_append]
  have ha : ((initPython t { w with allocs := w.allocs + 1, ps := ⟨0, 0, 0, false, [], false, false⟩ }).log t (Event.wgWait WG.startedWG)).allocs = w.allocs + 1 := by
    simp [World.log, initPython, wgAdd, wgSet]
  have ho : ((initPython t { w with allocs := w.allocs + 1, ps := ⟨0, 0, 0, false, [], false, false⟩ }).log t (Event.wgWait WG.startedWG)).singletonOnce = false := by
    simpa [World.log, initPython, wgAdd, wgSet] using h
  have hi : ((initPython t { w with allocs := w.allocs + 1, ps := ⟨0, 0, 0, false, [], false, false⟩ }).log t (Event.wgWait WG.startedWG)).pythonSingletonInstance = w.pythonSingletonInstance := by
    simp [World.log, initPython, wgAdd, wgSet]
  have hsw : ((initPython t { w with allocs := w.allocs + 1, ps := ⟨0, 0, 0, false, [], false, false⟩ }).log t (Event.wgWait WG.startedWG)).startedWG = 1 := by
    simp [World.log, initPython, wgAdd, wgSet, wgGet]
  have hlk : ((initPython t { w with allocs := w.allocs + 1, ps := ⟨0, 0, 0, false, [], false, false⟩ }).log t (Event.wgWait WG.startedWG)).ps.lock = false := by
    simp [World.log, initPython, wgAdd, wgSet, wgGet]
  have hsp : ((initPython t { w with allocs := w.allocs + 1, ps := ⟨0, 0, 0, false, [], false, false⟩ }).log t (Event.wgWait WG.startedWG)).ps.stopped = false := by
    simp [World.log, initPython, wgAdd, wgSet, wgGet]
  have key := startGoroutine_facts py opts
    ((initPython t { w with allocs := w.allocs + 1, ps := ⟨0, 0, 0, false, [], false, false⟩ }).log t (Event.wgWait WG.startedWG))
    (by simp [World.log, initPython, wgAdd, wgSet, wgGet])
    (by simp [World.log, initPython, wgAdd, wgSet, wgGet])
    (by simp [World.log, initPython, wgAdd, wgSet, wgGet])
  simp only [GetPythonSingleton]
  rw [if_neg (by rw [h]; exact Bool.false_ne_true)]
  generalize ((initPython t { w with allocs := w.allocs + 1, ps := ⟨0, 0, 0, false, [], false, false⟩ }).log t (Event.wgWait WG.startedWG)) = W at hst hin hop ha ho hi hsw hlk hsp key ⊢
  obtain ⟨k1, k2, k3, k4, k5, k6, k7, k8⟩ := key
  rw [ho] at k1
  rw [hi] at k2
  rw [ha] at k3
  rw [hst] at k4
  rw [hin] at k5
  rw [hop] at k6
  cases hr : startGoroutine py opts W with
  | blocked w1 =>
    rw [hr] at k1 k2 k3 k4 k5 k6 k8
    simp only [Res.world, Res.val, reduceCtorEq, imp_false] at k1 k2 k3 k4 k5 k6 k8
    simp only [Res.world, Res.val, if_neg k8]
    refine ⟨k3, k4, k5, k6, trivial, ?_, k2, fun hh => absurd hh k8⟩
    rw [k1]; exact (Bool.eq_false_iff.mpr k8).symm
  | ok u w1 =>
    obtain ⟨hps, hsg⟩ := k7 u w1 hr
    rw [hr] at k1 k2 k3 k4 k5 k6
    simp only [Res.world] at k1 k2 k3 k4 k5 k6
    rw [hsw] at hsg
    by_cases hall : (py.Py_IsInitialized && opts.all returnsNil) = true
    · rw [if_pos hall] at hsg
      have hz : wgGet w1 WG.startedWG = 0 := by simp [wgGet, hsg]
      simp only [hz, if_true, Res.world, Res.val, if_pos hall, k3]
      refine ⟨trivial, k4, k5, k6, trivial, hall.symm, trivial, fun _ => ?_⟩
      rw [hps]; exact ⟨hlk, hsp⟩
    · rw [if_neg hall] at hsg
      have hz : ¬ (wgGet w1 WG.startedWG = 0) := by simp [wgGet, hsg]
      simp only [if_neg hz, Res.world, Res.val, if_neg hall]
      refine ⟨k3, k4, k5, k6, trivial, ?_, k2, fun hh => absurd hh hall⟩
      rw [k1]; exact (Bool.eq_false_iff.mpr hall).symm

/-- C3 (singleton identity, exactly-once startup), evaluated on the code. The claim asks, for
every sequence of `GetPythonSingleton` calls with any option lists, that all calls return the
same instance. At `GetPythonSingleton(WithModules(["foo"]))` followed by `GetPythonSingleton()`,
with an interpreter in which importing "foo" succeeds, the first call never returns, so no
call of the sequence returns and no instance is published. For every interpreter and every
sequence the code does this: `Py_Initialize` runs once, `initPython` is called once and one
`pythonSingleton` is allocated, all by the first call; when the interpreter is initialized the
options of the first call, and only those, are called once each in order, up to and including
the first that is not of the `returnsNil` kind; the later calls leave the world exactly as the
first call left it; and the calls return, all of them the object with address 1 built by the
first call, exactly when the interpreter is initialized and every option of the first call is
of the `returnsNil` kind, and otherwise none of them returns. -/
theorem singleton_calls_hang_on_first_call_options :
    (getAll stubPython Thread.caller [[PythonSingletonOption.WithModules ["foo"]], []]
        World.init).1 = []
    ∧ (GetPythonSingleton stubPython Thread.caller [PythonSingletonOption.WithModules ["foo"]]
        World.init).val = none
    ∧ (getAll stubPython Thread.caller [[PythonSingletonOption.WithModules ["foo"]], []]
        World.init).2.pythonSingletonInstance = none
    ∧ (getAll stubPython Thread.caller [[PythonSingletonOption.WithModules ["foo"]], []]
        World.init).2.singletonOnce = false
    ∧ stubPython.PyImport_Import [] "foo" = some 7
    ∧ (getAll stubPython Thread.caller
        [[], [PythonSingletonOption.WithModules ["foo"]], [PythonSingletonOption.returning none]]
        World.init).1 = [some 1, some 1, some 1]
    ∧ (∀ (py : Python) (t : Thread) (first : List PythonSingletonOption)
        (rest : List (List PythonSingletonOption)),
        startups (getAll py t (first :: rest) World.init).2 = 1
        ∧ initPythonCalls (getAll py t (first :: rest) World.init).2 = 1
        ∧ (getAll py t (first :: rest) World.init).2.allocs = 1
        ∧ optionCalls (getAll py t (first :: rest) World.init).2
            = (if py.Py_IsInitialized then reached first else [])
        ∧ (getAll py t (first :: rest) World.init).2
            = (GetPythonSingleton py t first World.init).world
        ∧ (getAll py t (first :: rest) World.init).1
            = List.replicate
                (if (py.Py_IsInitialized && first.all returnsNil) = true then rest.length + 1
                 else 0)
                (some 1)) := by
  refine ⟨rfl, rfl, rfl, rfl, rfl, rfl, ?_⟩
  intro py t first rest
  obtain ⟨f1, f2, f3, f4, f5, f6, f7, _⟩ := GetPythonSingleton_fresh py t first World.init rfl
  have a0 : World.init.allocs = 0 := rfl
  have s0 : startups World.init = 0 := rfl
  have i0 : initPythonCalls World.init = 0 := rfl
  have o0 : optionCalls World.init = [] := rfl
  rw [a0] at f1 f5 f7
  rw [s0] at f2
  rw [i0] at f3
  rw [o0, List.nil_append] at f4
  cases hr : GetPythonSingleton py t first World.init with
  | blocked w1 =>
    rw [hr] at f1 f2 f3 f4 f5
    simp only [Res.world, Res.val] at f1 f2 f3 f4 f5
    have hall : ¬ ((py.Py_IsInitialized && first.all returnsNil) = true) := by
      intro hh; rw [if_pos hh] at f5; exact Option.noConfusion f5
    simp only [getAll, hr, Res.world, if_neg hall, List.replicate_zero]
    exact ⟨f2, f3, f1, f4, trivial, trivial⟩
  | ok inst w1 =>
    rw [hr] at f1 f2 f3 f4 f5 f6 f7
    simp only [Res.world, Res.val] at f1 f2 f3 f4 f5 f6 f7
    have hall : (py.Py_IsInitialized && first.all returnsNil) = true := by
      by_cases hh : (py.Py_IsInitialized && first.all returnsNil) = true
      · exact hh
      · rw [if_neg hh] at f5; exact Option.noConfusion f5
    rw [if_pos hall] at f5 f7
    have hinst : inst = some 1 := Option.some.inj f5
    have honce : w1.singletonOnce = true := by rw [f6]; exact hall
    simp only [getAll, hr, getAll_done py t rest w1 honce, f7, hinst, Res.world, if_pos hall,
      List.replicate_succ]
    exact ⟨f2, f3, f1, f4, trivial, trivial⟩

/-- When the first `GetPythonSingleton` returns, the mutex of the coordinator is free and
`stopped` is unset. -/
theorem GetPythonSingleton_returns (py : Python) (t : Thread) (opts : List PythonSingletonOption)
    (w w1 : World) (inst : Option Nat) (ho : w.singletonOnce = false)
    (h : GetPythonSingleton py t opts w = Res.ok inst w1) :
    w1.ps.lock = false ∧ w1.ps.stopped = false := by
  obtain ⟨_, _, _, _, f5, _, _, f8⟩ := GetPythonSingleton_fresh py t opts w ho
  rw [h] at f5 f8
  simp only [Res.world, Res.val] at f5 f8
  by_cases hh : (py.Py_IsInitialized && opts.all returnsNil) = true
  · exact f8 hh
  · rw [if_neg hh] at f5; exact Option.noConfusion f5

/-- A call of `Finalize` that returns leaves `stopped` set. -/
theorem Finalize_returned_stopped (t : Thread) (w w1 : World) (r : Option GoError)
    (h : Finalize t w = Res.ok r w1) : w1.ps.stopped = true := by
  unfold Finalize at h
  by_cases hl : w.ps.lock = true
  · simp [lockLock, World.log, hl] at h
  · by_cases hs : w.ps.stopped = true
    · simp [lockLock, World.log, hl, hs] at h
      obtain ⟨_, h2⟩ := h
      subst h2
      simp [hs]
    · by_cases ho : w.ps.stopOnce = true <;> by_cases hw : w.startWaiting = true <;>
        by_cases hz : w.ps.stopWG - 1 = 0 <;> by_cases hg : w.gil.isSome = true <;>
        by_cases hd : w.ps.stoppedWG = 0 <;> by_cases hd1 : w.ps.stoppedWG - 1 = 0 <;>
        simp [lockLock, World.log, hl, hs, lockUnlock, wgDone, wgSet, wgGet, startGoroutineStop,
          PyEval_RestoreThread, Py_Finalize, ho, hw, hz, hg, hd, hd1] at h <;>
        (obtain ⟨_, h2⟩ := h; subst h2; rfl)

/-- A call of `NewTask` that returns leaves the mutex free and does not touch `stopped`. -/
theorem NewTask_returned_state (t : Thread) (task : Work) (w w1 : World)
    (r : Option Nat × Option GoError) (h : NewTask t task w = Res.ok r w1) :
    w1.ps.lock = false ∧ w1.ps.stopped = w.ps.stopped := by
  by_cases hl : w.ps.lock = true
  · rw [NewTask_locked t task w hl] at h; exact Res.noConfusion h
  · by_cases hs : w.ps.stopped = true <;>
      simp [NewTask, lockLock, World.log, hl, hs, runDeferred, runDeferredCall, lockUnlock,
        newTask, wgAdd, wgSet, wgGet] at h <;>
      (obtain ⟨_, h2⟩ := h; subst h2; simp [hs])

/-- A call of `ImportModule` that returns leaves the mutex free and does not touch `stopped`. -/
theorem ImportModule_returned_state (py : Python) (t : Thread) (name : String) (w w1 : World)
    (r : Option Handle × Option GoError) (h : ImportModule py t name w = Res.ok r w1) :
    w1.ps.lock = false ∧ w1.ps.stopped = w.ps.stopped := by
  cases hl : w.ps.lock with
  | true => rw [ImportModule_locked py t name w hl] at h; exact Res.noConfusion h
  | false =>
    cases hs : w.ps.stopped with
    | true =>
      rw [ImportModule_stopped py t name w hs hl] at h
      simp only [Res.ok.injEq] at h
      rw [← h.2]; exact ⟨hl, hs⟩
    | false =>
      cases hc : w.ps.modules.lookup name with
      | some m =>
        rw [ImportModule_hit py t name w m hs hl hc] at h
        simp only [Res.ok.injEq] at h
        rw [← h.2]; exact ⟨hl, hs⟩
      | none =>
        cases hg : w.gil with
        | some g =>
          obtain ⟨wb, hb, _⟩ := ImportModule_miss_blocked py t name w hs hl hc (by simp [hg])
          rw [hb] at h; exact Res.noConfusion h
        | none =>
          obtain ⟨wa, ha, hs1, hl1, _⟩ := ImportModule_miss py t name w hs hl hc hg
          rw [ha] at h
          simp only [Res.ok.injEq] at h
          rw [← h.2]; exact ⟨hl1, hs1⟩

/-- In a sequential run the mutex of a coordinator that is not stopped is free between calls:
the property "mutex held implies stopped" is kept by every sequence of public calls. -/
theorem runCalls_mutex_free (py : Python) (t : Thread) (calls : List Call) :
    ∀ (w w1 : World) (rets : List Ret), (w.ps.lock = true → w.ps.stopped = true) →
      runCalls py t calls w = Res.ok rets w1 → (w1.ps.lock = true → w1.ps.stopped = true) := by
  induction calls with
  | nil =>
    intro w w1 rets hinv h
    simp only [runCalls, Res.ok.injEq] at h
    rw [← h.2]; exact hinv
  | cons c rest ih =>
    intro w w1 rets hinv h
    simp only [runCalls] at h
    cases hc : runCall py t c w with
    | blocked wb => rw [hc] at h; exact Res.noConfusion h
    | ok r wa =>
      rw [hc] at h
      simp only at h
      have hstep : wa.ps.lock = true → wa.ps.stopped = true := by
        cases c with
        | ImportModule name =>
          simp only [runCall] at hc
          cases hi : ImportModule py t name w with
          | blocked wb => rw [hi] at hc; exact Res.noConfusion hc
          | ok ri wi =>
            rw [hi] at hc
            simp only [Res.ok.injEq] at hc
            obtain ⟨hl1, _⟩ := ImportModule_returned_state py t name w wi ri hi
            intro hlock
            rw [← hc.2, hl1] at hlock
            exact absurd hlock Bool.false_ne_true
        | NewTask task =>
          simp only [runCall] at hc
          cases hi : NewTask t task w with
          | blocked wb => rw [hi] at hc; exact Res.noConfusion hc
          | ok ri wi =>
            rw [hi] at hc
            simp only [Res.ok.injEq] at hc
            obtain ⟨hl1, _⟩ := NewTask_returned_state t task w wi ri hi
            intro hlock
            rw [← hc.2, hl1] at hlock
            exact absurd hlock Bool.false_ne_true
        | Finalize =>
          simp only [runCall] at hc
          cases hi : Finalize t w with
          | blocked wb => rw [hi] at hc; exact Res.noConfusion hc
          | ok ri wi =>
            rw [hi] at hc
            simp only [Res.ok.injEq] at hc
            intro _
            rw [← hc.2]
            exact Finalize_returned_stopped t w wi ri hi
      cases hr : runCalls py t rest wa with
      | blocked wb => rw [hr] at h; exact Res.noConfusion h
      | ok rs wc =>
        rw [hr] at h
        simp only [Res.ok.injEq] at h
        rw [← h.2]
        exact ih wa wc rs hstep hr

/-- In every world reached from process start by a first `GetPythonSingleton` (any options)
followed by any sequence of public calls, a coordinator that is not stopped has its mutex
free. -/
theorem mutex_free_while_not_stopped (py : Python) (t : Thread)
    (opts : List PythonSingletonOption) (calls : List Call) (inst : Option Nat)
    (w0 w : World) (rets : List Ret)
    (h0 : GetPythonSingleton py t opts World.init = Res.ok inst w0)
    (h : runCalls py t calls w0 = Res.ok rets w) (hs : w.ps.stopped = false) :
    w.ps.lock = false := by
  obtain ⟨hl0, _⟩ := GetPythonSingleton_returns py t opts World.init w0 inst rfl h0
  have hinv := runCalls_mutex_free py t calls w0 w rets
    (fun hl => absurd (hl0 ▸ hl) Bool.false_ne_true) h
  cases hl : w.ps.lock with
  | false => rfl
  | true => rw [hinv hl] at hs; exact absurd hs (by decide)

end Pytasks
